import Mathlib

/-!
Verification development for the LinkedIn company-profile scraper
(`src/extractors/linkedin_parser.py`, `src/extractors/utils_cleaner.py`).

The extraction core is embedded shallowly:

* Python dictionaries become ordered association lists (`Rec` for the
  company record, `List (String × Json)` for a parsed JSON-LD object).
* Values parsed by `json.loads` become the inductive `Json`
  (dict / list / str / int / bool / None; floating-point JSON numbers
  are out of the claims' scope and are modelled as integers).
* BeautifulSoup tags become the pre-parsed `Doc` structure: the list of
  `<script type="application/ld+json">` bodies (already run through
  `json.loads`, with `none` standing for a script whose text is empty
  or fails to parse — both are skipped by the source), the `<title>`
  string, the meta tags (keyed by their `name`/`property` attribute)
  and the flattened visible text `soup.get_text(" ", strip=True)`.
* `requests` is replaced by an oracle `Nat → AttemptResult` giving the
  outcome of each attempt (1-indexed); `time.sleep` is modelled by
  recording the slept durations (excluding the random jitter) as exact
  rationals, and successful fetches carry a pre-parsed `Doc` in place
  of `response.text`.
* Exceptions caught by `scrape_profiles` are modelled by `Except` with
  the string produced by `safe_str(exc)` as payload.

String helpers are written at the character-list level so that they
compute by structural recursion; each mirrors the Python expression
named in its doc comment.  Python `\s`/`str.strip`/`str.lower` operate
on Unicode classes; `Char.isWhitespace`/`Char.toLower` agree with them
on all inputs appearing in the claims.
-/

/-! ## Python truthiness and scalar values -/

/-- A value stored in a company-record dictionary: Python `None`,
a string, or an integer (counter fields).  `vnone` doubles as the
result of `dict.get` on a missing key, exactly as in Python. -/
inductive Val where
  | vnone
  | vstr (s : String)
  | vint (n : Int)
deriving DecidableEq, Repr

/-- Python truthiness of a record value: `None`, `""` and `0` are falsy. -/
def Val.truthy : Val → Bool
  | .vnone => false
  | .vstr s => !(s = "")
  | .vint n => !(n = 0)

/-- A value produced by `json.loads`: `None`, `bool`, `int`, `str`,
`list` or `dict` (in insertion order, keys unique). -/
inductive Json where
  | null
  | jbool (b : Bool)
  | num (n : Int)
  | str (s : String)
  | arr (xs : List Json)
  | obj (fs : List (String × Json))

/-- Python truthiness of a JSON value: `None`, `False`, `0`, `""`,
`[]` and `{}` are falsy. -/
def jtruthy : Json → Bool
  | .null => false
  | .jbool b => b
  | .num n => !(n = 0)
  | .str s => !(s = "")
  | .arr xs => !xs.isEmpty
  | .obj fs => !fs.isEmpty

/-- Python `a or b` on JSON values: `b` when `a` is falsy, else `a`. -/
def jor (a b : Json) : Json := if jtruthy a then a else b

/-- Python `repr` of a string: the text wrapped in single quotes
(escaping of quotes and control characters inside the text is not
modelled; no claim exercises it). -/
def strLit (s : String) : String := "\x27" ++ s ++ "\x27"

mutual
/-- Python `repr` of a `json.loads` value. -/
def pyRepr : Json → String
  | .null => "None"
  | .jbool b => if b then "True" else "False"
  | .num n => toString n
  | .str s => strLit s
  | .arr xs => "[" ++ String.intercalate ", " (pyReprList xs) ++ "]"
  | .obj fs => "\x7b" ++ String.intercalate ", " (pyReprObj fs) ++ "\x7d"

/-- Python repr of each element of a Python list. -/
def pyReprList : List Json → List String
  | [] => []
  | x :: xs => pyRepr x :: pyReprList xs

/-- Python repr of each `key: value` entry of a Python dict. -/
def pyReprObj : List (String × Json) → List String
  | [] => []
  | (k, v) :: fs => (strLit k ++ ": " ++ pyRepr v) :: pyReprObj fs
end

/-- Python `str()` of a `json.loads` value: identity on strings,
`repr` otherwise (`str(None) = "None"`, `str(True) = "True"`, …). -/
def pyStr : Json → String
  | .str s => s
  | j => pyRepr j

/-- Embeds `utils_cleaner.safe_str`: `""` for `None`, the string itself for a
string, `str(value)` otherwise. -/
def safe_str : Json → String
  | .null => ""
  | .str s => s
  | j => pyStr j

/-! ## Character-level string helpers (structural, so they compute) -/

/-- Tail of `wsTokens`: split into maximal runs of non-whitespace,
like Python `str.split()` with no argument (no empty tokens). -/
def wsTokensAux : List Char → List Char → List (List Char)
  | cur, [] => if cur.isEmpty then [] else [cur.reverse]
  | cur, c :: rest =>
    if c.isWhitespace then
      if cur.isEmpty then wsTokensAux [] rest
      else cur.reverse :: wsTokensAux [] rest
    else wsTokensAux (c :: cur) rest

/-- Python `text.split()`: whitespace-delimited tokens, empties dropped. -/
def wsTokens (cs : List Char) : List (List Char) := wsTokensAux [] cs

/-- Python `str.strip()`: drop leading and trailing whitespace. -/
def trimChars (cs : List Char) : List Char :=
  ((cs.dropWhile Char.isWhitespace).reverse.dropWhile Char.isWhitespace).reverse

/-- Python `title.split("|")`: split on a separator character, keeping
empty pieces. -/
def splitOnCharAux (sep : Char) : List Char → List Char → List (List Char)
  | cur, [] => [cur.reverse]
  | cur, c :: rest =>
    if c = sep then cur.reverse :: splitOnCharAux sep [] rest
    else splitOnCharAux sep (c :: cur) rest

/-- Split a string on one separator character (Python `str.split(sep)`). -/
def splitOnChar (sep : Char) (s : String) : List (List Char) :=
  splitOnCharAux sep [] s.toList

/-- Python `str.lower()`, character by character. -/
def strLower (s : String) : String := String.mk (s.toList.map Char.toLower)

/-- Tests whether `needle` is a prefix of `hay`. -/
def isPre : List Char → List Char → Bool
  | [], _ => true
  | _ :: _, [] => false
  | a :: as, b :: bs => a = b && isPre as bs

/-- Tests whether `needle` occurs as a contiguous substring of `hay`
(Python `needle in hay`). -/
def isInf (needle : List Char) : List Char → Bool
  | [] => needle.isEmpty
  | c :: rest => isPre needle (c :: rest) || isInf needle rest

/-- Python `needle in hay` on strings. -/
def strContains (hay needle : String) : Bool := isInf needle.toList hay.toList

/-! ## `utils_cleaner` embedding -/

/-- Join tokens with single spaces (character level). -/
def joinTokens : List (List Char) → List Char
  | [] => []
  | [t] => t
  | t :: rest => t ++ ' ' :: joinTokens rest

/-- Embeds `utils_cleaner.clean_text` on an optional string: collapse every
whitespace run to a single space (`re.sub(r"\s+", " ", value)`), strip,
and return `None` when the result is empty (`return cleaned or None`).
Collapsing-then-stripping equals joining the whitespace-split tokens
with single spaces. -/
def clean_text (value : Option String) : Option String :=
  match value with
  | none => none
  | some v =>
    match wsTokens v.toList with
    | [] => none
    | t :: rest => some (String.mk (joinTokens (t :: rest)))

/-- Applies `clean_text` to a `json.loads` value: `None` maps to `None`, a
non-string is first passed through `str()`. -/
def clean_text_json : Json → Option String
  | .null => none
  | .str s => clean_text (some s)
  | j => clean_text (some (pyStr j))

/-- Digits (with Python's single underscores between digits) after the
first digit of an integer literal, accumulating the value. -/
def pyDigitsAux : Nat → List Char → Option Nat
  | acc, [] => some acc
  | acc, c :: cs =>
    if c.isDigit then pyDigitsAux (10 * acc + (c.toNat - 48)) cs
    else if c = '_' then
      match cs with
      | d :: ds => if d.isDigit then pyDigitsAux (10 * acc + (d.toNat - 48)) ds else none
      | [] => none
    else none

/-- A nonempty digit sequence (underscore-separated) and its value. -/
def pyDigits : List Char → Option Nat
  | [] => none
  | c :: cs => if c.isDigit then pyDigitsAux (c.toNat - 48) cs else none

/-- Python `int(text)` on an already-stripped string: optional sign
followed by digits (underscore separators allowed between digits);
anything else raises `ValueError`, modelled as `none`. -/
def pyParseInt (cs : List Char) : Option Int :=
  match cs with
  | '+' :: rest => (pyDigits rest).map Int.ofNat
  | '-' :: rest => (pyDigits rest).map (fun n => -(n : Int))
  | _ => (pyDigits cs).map Int.ofNat

/-- Embeds `utils_cleaner.safe_int` applied to a string:
`text.replace(",", "").strip()`, `None` when empty, else `int(text)`
with a failed parse returning `None`. -/
def safe_int_str (s : String) : Option Int :=
  match trimChars (s.toList.filter (fun c => !(c = ','))) with
  | [] => none
  | cs => pyParseInt cs

/-- Embeds `utils_cleaner.safe_int` on a `json.loads` value: `None` for
`None`, the value itself for an `int` (Python `bool` is an `int`:
`True = 1`, `False = 0`), otherwise `str(value)` then the string path. -/
def safe_int : Json → Option Int
  | .null => none
  | .num n => some n
  | .jbool b => some (if b then 1 else 0)
  | j => safe_int_str (pyStr j)

/-- A character counting as `\w` for the `\b` boundaries of the year
regex `\b(19\d{2}|20\d{2})\b`. -/
def isWordChar (c : Char) : Bool := c.isAlphanum || c = '_'

/-- One candidate position of the year regex: the next four characters
are `19dd` or `20dd` and both ends sit on a word boundary. -/
def yearHere (prev : Option Char) : List Char → Option Int
  | c1 :: c2 :: c3 :: c4 :: rest =>
    if ((c1 = '1' && c2 = '9') || (c1 = '2' && c2 = '0'))
        && c3.isDigit && c4.isDigit
        && (match prev with | none => true | some p => !isWordChar p)
        && (match rest with | [] => true | t :: _ => !isWordChar t) then
      some (((c1.toNat - 48) * 1000 + (c2.toNat - 48) * 100
             + (c3.toNat - 48) * 10 + (c4.toNat - 48) : Nat) : Int)
    else none
  | _ => none

/-- Leftmost match of `\b(19\d{2}|20\d{2})\b` (the scan `re.search`
performs), remembering the previous character for the left boundary. -/
def yearScan (prev : Option Char) : List Char → Option Int
  | [] => none
  | c :: rest =>
    match yearHere prev (c :: rest) with
    | some y => some y
    | none => yearScan (some c) rest

/-- Embeds `utils_cleaner.extract_year`: `None` on a falsy (empty) text, else
the first 4-digit year in `[1900, 2099]` on word boundaries. -/
def extract_year (text : String) : Option Int :=
  if text = "" then none else yearScan none text.toList

/-! ## The company record (an ordered Python dict) -/

/-- The in-progress company record: an insertion-ordered mapping from
field names to values, exactly a Python `dict`. -/
def Rec : Type := List (String × Val)

/-- Python `target.get(k)`: first binding of `k`, `None` when absent. -/
def Rec.get : Rec → String → Val
  | [], _ => .vnone
  | (k0, v0) :: rest, k => if k0 = k then v0 else Rec.get rest k

/-- Python `target[k] = v`: replace the binding in place, or append a new one
at the end (Python dict insertion order). -/
def Rec.set : Rec → String → Val → Rec
  | [], k, v => [(k, v)]
  | (k0, v0) :: rest, k, v =>
    if k0 = k then (k0, v) :: rest else (k0, v0) :: Rec.set rest k v

/-- The field names of a record, in order (`list(target)`). -/
def Rec.keys (r : Rec) : List String := r.map Prod.fst

/-- Lift `clean_text`-style optional strings into record values
(`None` or the string, as Python stores them). -/
def toVal : Option String → Val
  | none => .vnone
  | some s => .vstr s

/-- Lift `safe_int`-style optional integers into record values. -/
def intToVal : Option Int → Val
  | none => .vnone
  | some n => .vint n

/-- The fresh record built at the top of `_parse_company`: all 22
fields present, `company_profile` bound to the input URL, everything
else `None`. -/
def initRecord (url : String) : Rec :=
  [("company_name", .vnone),
   ("company_profile", .vstr url),
   ("company_website", .vnone),
   ("company_address_type", .vnone),
   ("company_street", .vnone),
   ("company_locality", .vnone),
   ("company_region", .vnone),
   ("company_postal_code", .vnone),
   ("company_country", .vnone),
   ("company_employees_on_linkedin", .vnone),
   ("company_followers_on_linkedin", .vnone),
   ("company_logo", .vnone),
   ("company_cover_image", .vnone),
   ("company_slogan", .vnone),
   ("company_twitter_description", .vnone),
   ("company_about_us", .vnone),
   ("company_industry", .vnone),
   ("company_size", .vnone),
   ("company_headquarters", .vnone),
   ("company_organization_type", .vnone),
   ("company_founded", .vnone),
   ("company_specialties", .vnone)]

/-- The fixed field names of a Company Record, in insertion order. -/
def FIELDS : List String := (initRecord "").map Prod.fst

/-! ## JSON-LD structured-data extractor (`_apply_json_ld`) -/

/-- A candidate JSON-LD node: the field list of a parsed dict. -/
def Node : Type := List (String × Json)

/-- Python `node.get(k)` on a parsed dict: `None` when the key is absent. -/
def nget (fs : Node) (k : String) : Json :=
  match fs.find? (fun p => p.1 = k) with
  | some p => p.2
  | none => .null

/-- The `@type` filter at the top of `_apply_json_ld`:
`safe_str(node.get("@type")).lower()` must contain `"organization"`,
`"corp"` or `"company"`. -/
def isCompanyType (node : Node) : Bool :=
  let t := strLower (safe_str (nget node "@type"))
  strContains t "organization" || strContains t "corp" || strContains t "company"

/-- The lines `name = clean_text(node.get("name")); if name: target["company_name"] = name`. -/
def nameStep (node : Node) (t : Rec) : Rec :=
  match clean_text_json (nget node "name") with
  | some s => t.set "company_name" (.vstr s)
  | none => t

/-- The lines `url = clean_text(node.get("url")); if url: target["company_website"] = url`. -/
def websiteStep (node : Node) (t : Rec) : Rec :=
  match clean_text_json (nget node "url") with
  | some s => t.set "company_website" (.vstr s)
  | none => t

/-- The value `address = node.get("address")`, replaced by its first element when
it is a nonempty list (an empty list is falsy and stays as is). -/
def resolvedAddress (node : Node) : Json :=
  match nget node "address" with
  | .arr (x :: _) => x
  | a => a

/-- Python `getattr(x, "name", None)` on a `json.loads` value: dicts,
lists, strings, numbers, booleans and `None` all lack a `name`
attribute, so the call always returns the default `None`. -/
def getattr_name (_ : Json) : Json := .null

/-- The `addressCountry` expression of `_apply_json_ld`: the value
itself when it is a string, otherwise `getattr(value, "name", None)`,
then `clean_text`. -/
def countryText (afs : Node) : Option String :=
  match nget afs "addressCountry" with
  | .str s => clean_text (some s)
  | j => clean_text_json (getattr_name j)

/-- The `isinstance(address, dict)` block: unconditionally assign the
six address-derived fields from the address object. -/
def addressStep (node : Node) (t : Rec) : Rec :=
  match resolvedAddress node with
  | .obj afs =>
    ((((((t.set "company_address_type" (toVal (clean_text_json (nget afs "@type")))).set
        "company_street" (toVal (clean_text_json (nget afs "streetAddress")))).set
        "company_locality" (toVal (clean_text_json (nget afs "addressLocality")))).set
        "company_region" (toVal (clean_text_json (nget afs "addressRegion")))).set
        "company_postal_code" (toVal (clean_text_json (nget afs "postalCode")))).set
        "company_country" (toVal (countryText afs)))
  | _ => t

/-- The branch `if description and not target.get("company_about_us"): …`. -/
def descriptionStep (node : Node) (t : Rec) : Rec :=
  match clean_text_json (nget node "description") with
  | some d =>
    if (t.get "company_about_us").truthy then t
    else t.set "company_about_us" (.vstr d)
  | none => t

/-- The lines `employees = node.get("numberOfEmployees") or node.get("employees");
if employees and not target.get("company_employees_on_linkedin"): …`. -/
def employeesStep (node : Node) (t : Rec) : Rec :=
  let employees := jor (nget node "numberOfEmployees") (nget node "employees")
  if jtruthy employees && !(t.get "company_employees_on_linkedin").truthy then
    t.set "company_employees_on_linkedin" (intToVal (safe_int employees))
  else t

/-- The branch `if not target.get("company_logo"): …` — a dict logo contributes
its `url` entry, anything else is cleaned directly (both branches
assign, possibly `None`). -/
def logoStep (node : Node) (t : Rec) : Rec :=
  if (t.get "company_logo").truthy then t
  else
    match nget node "logo" with
    | .obj lfs => t.set "company_logo" (toVal (clean_text_json (nget lfs "url")))
    | j => t.set "company_logo" (toVal (clean_text_json j))

/-- The branch `if not target.get("company_industry"): industry = clean_text(…);
if industry: …`. -/
def industryStep (node : Node) (t : Rec) : Rec :=
  if (t.get "company_industry").truthy then t
  else
    match clean_text_json (nget node "industry") with
    | some s => t.set "company_industry" (.vstr s)
    | none => t

/-- The branch `if not target.get("company_founded"): founded =
extract_year(safe_str(node.get("foundingDate") or
node.get("foundingYear"))); if founded: …`. -/
def foundedStep (node : Node) (t : Rec) : Rec :=
  if (t.get "company_founded").truthy then t
  else
    match extract_year (safe_str (jor (nget node "foundingDate") (nget node "foundingYear"))) with
    | some y => t.set "company_founded" (.vint y)
    | none => t

/-- The branch `if not target.get("company_size"): employees_range = … or …;
if employees_range: …`. -/
def sizeStep (node : Node) (t : Rec) : Rec :=
  if (t.get "company_size").truthy then t
  else
    let er := jor (nget node "employeesRange") (nget node "employeeRange")
    if jtruthy er then t.set "company_size" (toVal (clean_text_json er)) else t

/-- The branch `if not target.get("company_headquarters"): hq = … or …` — a dict
contributes `name or addressLocality or addressRegion`, a string is
cleaned directly. -/
def hqStep (node : Node) (t : Rec) : Rec :=
  if (t.get "company_headquarters").truthy then t
  else
    match jor (nget node "foundingLocation") (nget node "location") with
    | .obj hfs =>
      t.set "company_headquarters"
        (toVal (clean_text_json
          (jor (nget hfs "name") (jor (nget hfs "addressLocality") (nget hfs "addressRegion")))))
    | .str s => t.set "company_headquarters" (toVal (clean_text (some s)))
    | _ => t

/-- The branch `if not target.get("company_specialties"): specialties = … or … or …`
— a list joins its cleaned truthy elements with `", "` (possibly the
empty string), a string is cleaned directly. -/
def specialtiesStep (node : Node) (t : Rec) : Rec :=
  if (t.get "company_specialties").truthy then t
  else
    match jor (nget node "knowsAbout") (jor (nget node "specialty") (nget node "specialties")) with
    | .arr xs =>
      t.set "company_specialties" (.vstr (String.intercalate ", " (xs.filterMap clean_text_json)))
    | .str s => t.set "company_specialties" (toVal (clean_text (some s)))
    | _ => t

/-- Embeds `LinkedInCompanyScraper._apply_json_ld`: return unchanged unless
the node's `@type` matches, otherwise run the eleven field updates in
source order. -/
def apply_json_ld (node : Node) (t : Rec) : Rec :=
  if isCompanyType node then
    specialtiesStep node (hqStep node (sizeStep node (foundedStep node
      (industryStep node (logoStep node (employeesStep node
        (descriptionStep node (addressStep node
          (websiteStep node (nameStep node t))))))))))
  else t

/-- The loop body over one parsed JSON-LD list: dict entries are
applied, anything else is ignored. -/
def applyEntries (entries : List Json) (t : Rec) : Rec :=
  entries.foldl (fun acc e =>
    match e with
    | .obj fs => apply_json_ld fs acc
    | _ => acc) t

/-- Embeds `LinkedInCompanyScraper._parse_from_json_ld`: each script block is
parsed independently (`none` models an empty or unparseable block,
skipped); a parsed list applies each dict entry, a parsed dict applies
itself, any other JSON value is ignored. -/
def parse_from_json_ld (blocks : List (Option Json)) (t : Rec) : Rec :=
  blocks.foldl (fun acc b =>
    match b with
    | none => acc
    | some (.arr entries) => applyEntries entries acc
    | some (.obj fs) => apply_json_ld fs acc
    | some _ => acc) t

/-! ## Heuristic extractor (`_parse_from_meta_and_title`) -/

/-- The pre-parsed document handed to the two extractor passes. -/
structure Doc where
  ldBlocks : List (Option Json)
  title : Option String
  metas : List (String × String)
  bodyText : String

/-- Embeds `LinkedInCompanyScraper._find_meta_content`: first key whose meta
tag exists and has truthy content. -/
def find_meta_content (metas : List (String × String)) : List String → Option String
  | [] => none
  | k :: ks =>
    match metas.find? (fun p => p.1 = k) with
    | some p => if p.2 = "" then find_meta_content metas ks else some p.2
    | none => find_meta_content metas ks

/-- The `<title>` fallback for `company_name`: clean the title, split
on `|`, strip the pieces, keep the nonempty ones, take the first. -/
def titleStep (d : Doc) (t : Rec) : Rec :=
  if (t.get "company_name").truthy then t
  else
    match d.title with
    | some ts =>
      if ts = "" then t
      else
        match clean_text (some ts) with
        | some title =>
          match ((splitOnChar '|' title).map trimChars).filter (fun p => !p.isEmpty) with
          | p :: _ => t.set "company_name" (.vstr (String.mk p))
          | [] => t
        | none => t
    | none => t

/-- The description metas: fill `company_about_us` and, when still
falsy, `company_twitter_description`. -/
def descMetaStep (d : Doc) (t : Rec) : Rec :=
  if (t.get "company_about_us").truthy then t
  else
    match find_meta_content d.metas ["description", "og:description"] with
    | some desc =>
      let t1 := t.set "company_about_us" (toVal (clean_text (some desc)))
      if (t1.get "company_twitter_description").truthy then t1
      else t1.set "company_twitter_description" (toVal (clean_text (some desc)))
    | none => t

/-- The logo metas (`og:logo`, `og:image`, `twitter:image`). -/
def logoMetaStep (d : Doc) (t : Rec) : Rec :=
  if (t.get "company_logo").truthy then t
  else
    match find_meta_content d.metas ["og:logo", "og:image", "twitter:image"] with
    | some logo => t.set "company_logo" (toVal (clean_text (some logo)))
    | none => t

/-- The cover-image metas (`og:image`, `twitter:image`). -/
def coverMetaStep (d : Doc) (t : Rec) : Rec :=
  if (t.get "company_cover_image").truthy then t
  else
    match find_meta_content d.metas ["og:image", "twitter:image"] with
    | some cover => t.set "company_cover_image" (toVal (clean_text (some cover)))
    | none => t

/-- The slogan heuristic: `og:title`/`twitter:title`, accepted only
when cleaned truthy, `company_name` truthy and the headline differs
from `company_name`.  The source first tests the raw content for
truthiness and then reassigns `headline = clean_text(headline)`;
composing the two steps is exactly `Option.bind` (a `None` from either
stage falls through to the same no-op). -/
def sloganStep (d : Doc) (t : Rec) : Rec :=
  if (t.get "company_slogan").truthy then t
  else
    match (find_meta_content d.metas ["og:title", "twitter:title"]).bind
        (fun h => clean_text (some h)) with
    | some headline =>
      if (t.get "company_name").truthy && !(t.get "company_name" = Val.vstr headline) then
        t.set "company_slogan" (.vstr headline)
      else t
    | none => t

/-- A token of the body text, lower-cased, contains the keyword. -/
def tokenHasKeyword (kw : String) (tok : List Char) : Bool :=
  isInf kw.toList (tok.map Char.toLower)

/-- Python `candidate.rstrip("+·")`: drop trailing `+` and `·`. -/
def rstripPlusMiddot (cs : List Char) : List Char :=
  (cs.reverse.dropWhile (fun c => c = '+' || c = '·')).reverse

/-- The scan of `_extract_number_near_keyword`: for each token
containing the keyword (skipping position 0, which has no predecessor)
strip trailing `+`/`·` from the previous token and try `safe_int`;
first success wins. -/
def numNearAux (kw : String) : Option (List Char) → List (List Char) → Option Int
  | _, [] => none
  | prev, tok :: rest =>
    match prev with
    | some p =>
      if tokenHasKeyword kw tok then
        match safe_int_str (String.mk (rstripPlusMiddot p)) with
        | some v => some v
        | none => numNearAux kw (some tok) rest
      else numNearAux kw (some tok) rest
    | none => numNearAux kw (some tok) rest

/-- Embeds `LinkedInCompanyScraper._extract_number_near_keyword`. -/
def extract_number_near_keyword (text keyword : String) : Option Int :=
  numNearAux (strLower keyword) none (wsTokens text.toList)

/-- The followers heuristic inside the `if body_text:` block. -/
def followersStep (d : Doc) (t : Rec) : Rec :=
  if (t.get "company_followers_on_linkedin").truthy then t
  else
    match extract_number_near_keyword d.bodyText "followers" with
    | some n => t.set "company_followers_on_linkedin" (.vint n)
    | none => t

/-- The employees heuristic inside the `if body_text:` block. -/
def employeesHeurStep (d : Doc) (t : Rec) : Rec :=
  if (t.get "company_employees_on_linkedin").truthy then t
  else
    match extract_number_near_keyword d.bodyText "employees" with
    | some n => t.set "company_employees_on_linkedin" (.vint n)
    | none => t

/-- The follower / employee counters scanned from the flattened body
text (`if body_text:` guards the whole block; the two heuristics run
in source order). -/
def countersStep (d : Doc) (t : Rec) : Rec :=
  if d.bodyText = "" then t else employeesHeurStep d (followersStep d t)

/-- Embeds `LinkedInCompanyScraper._parse_from_meta_and_title`: the six
heuristic fills in source order. -/
def parse_from_meta_and_title (d : Doc) (t : Rec) : Rec :=
  countersStep d (sloganStep d (coverMetaStep d (logoMetaStep d
    (descMetaStep d (titleStep d t)))))

/-- Embeds `LinkedInCompanyScraper._parse_company`: fresh record, JSON-LD
pass, then the meta/title fallbacks. -/
def parse_company (d : Doc) (url : String) : Rec :=
  parse_from_meta_and_title d (parse_from_json_ld d.ldBlocks (initRecord url))

/-! ## Fetcher and orchestrator -/

/-- The outcome of one `session.get` attempt: a response with its
status code and (pre-parsed) body, or a raised `RequestException`
carrying its message. -/
inductive AttemptResult where
  | response (status : Nat) (text : Doc)
  | exc (msg : String)

/-- An attempt counts as a success when its status is in `[200, 300)`. -/
def AttemptResult.isSuccess : AttemptResult → Bool
  | .response s _ => if 200 ≤ s ∧ s < 300 then true else false
  | .exc _ => false

/-- The retry loop of `_fetch_company_page`, by remaining fuel.
`attempt` is the 1-indexed loop variable; the second component records
every `time.sleep` duration excluding the `random.uniform(0, 0.5)`
jitter, as the exact rational `backoff_factor * 2 ** (attempt - 1)`.
After a non-2xx response or a `RequestException` the loop always
sleeps, including after the final attempt; on exhaustion it raises the
last transport exception when one occurred, else a generic
`RuntimeError`. -/
def fetchGo (backoff : ℚ) (url : String) (attempts : Nat → AttemptResult) :
    Nat → Nat → Option String → (Except String Doc) × List ℚ
  | 0, _, lastExc =>
    (match lastExc with
     | some e => .error e
     | none => .error ("Failed to fetch " ++ url), [])
  | fuel + 1, attempt, lastExc =>
    match attempts attempt with
    | .response s text =>
      if 200 ≤ s ∧ s < 300 then (.ok text, [])
      else
        let r := fetchGo backoff url attempts fuel (attempt + 1) lastExc
        (r.1, backoff * 2 ^ (attempt - 1) :: r.2)
    | .exc m =>
      let r := fetchGo backoff url attempts fuel (attempt + 1) (some m)
      (r.1, backoff * 2 ^ (attempt - 1) :: r.2)

/-- Embeds `LinkedInCompanyScraper._fetch_company_page` with its attempt
outcomes supplied by an oracle. -/
def fetch_company_page (maxRetries : Nat) (backoff : ℚ) (url : String)
    (attempts : Nat → AttemptResult) : (Except String Doc) × List ℚ :=
  fetchGo backoff url attempts maxRetries 1 none

/-- The skeleton record appended when scraping one URL fails:
exactly the three keys the source writes, with
`error = safe_str(exc)` (the exception's message). -/
def skeletonRecord (url errMsg : String) : Rec :=
  [("company_name", .vnone), ("company_profile", .vstr url), ("error", .vstr errMsg)]

/-- One iteration of the `scrape_profiles` loop: fetch, then parse; a
raised exception is caught and turned into the skeleton record. -/
def scrape_one (maxRetries : Nat) (backoff : ℚ) (attempts : Nat → AttemptResult)
    (url : String) : Rec :=
  match (fetch_company_page maxRetries backoff url attempts).1 with
  | .ok d => parse_company d url
  | .error e => skeletonRecord url e

/-- Embeds `LinkedInCompanyScraper.scrape_profiles`: one record per input URL
in order (the `if not urls: return []` guard coincides with mapping
over the empty list). -/
def scrape_profiles (maxRetries : Nat) (backoff : ℚ)
    (attempts : String → Nat → AttemptResult) (urls : List String) : List Rec :=
  urls.map (fun url => scrape_one maxRetries backoff (attempts url) url)

/-! ## Record lemmas -/

theorem Rec.get_set_self (r : Rec) (k : String) (v : Val) : (r.set k v).get k = v := by
  induction r with
  | nil => simp [Rec.set, Rec.get]
  | cons p rest ih =>
    obtain ⟨k0, v0⟩ := p
    by_cases h : k0 = k <;> simp [Rec.set, Rec.get, h, ih]

theorem Rec.get_set_ne (r : Rec) (k k' : String) (v : Val) (h : ¬ k' = k) :
    (r.set k v).get k' = r.get k' := by
  induction r with
  | nil =>
    have h2 : ¬ k = k' := fun hh => h hh.symm
    simp [Rec.set, Rec.get, h2]
  | cons p rest ih =>
    obtain ⟨k0, v0⟩ := p
    by_cases h0 : k0 = k <;> by_cases h1 : k0 = k' <;>
      simp_all [Rec.set, Rec.get]

theorem Rec.keys_set_of_mem (r : Rec) (k : String) (v : Val) :
    k ∈ r.keys → (r.set k v).keys = r.keys := by
  induction r with
  | nil => intro h; simp [Rec.keys] at h
  | cons p rest ih =>
    intro h
    obtain ⟨k0, v0⟩ := p
    by_cases h0 : k0 = k
    · simp [Rec.set, Rec.keys, h0]
    · have hmem : k ∈ Rec.keys rest := by
        simp [Rec.keys] at h
        rcases h with h | h
        · exact absurd h.symm h0
        · simpa [Rec.keys] using h
      simp only [Rec.set, if_neg h0, Rec.keys, List.map_cons]
      simpa [Rec.keys] using ih hmem

/-! ## Generic per-field transition shapes over a fold of nodes -/

/-- Overwrite-style field update: when the node satisfies `c`, the
field is replaced by `w n` regardless of its current value. -/
def owF (c : α → Bool) (w : α → Val) : Val → α → Val :=
  fun v n => if c n then w n else v

/-- Guarded field update ("first truthy writer wins"): when the node
satisfies `c` and the field is still falsy, store `w n` (which may
itself be falsy). -/
def gdF (c : α → Bool) (w : α → Val) : Val → α → Val :=
  fun v n => if c n && !v.truthy then w n else v

theorem foldl_owF_idem (c : α → Bool) (w : α → Val) (l : List α) (v : Val) :
    l.foldl (owF c w) (l.foldl (owF c w) v) = l.foldl (owF c w) v := by
  induction l generalizing v with
  | nil => rfl
  | cons n rest ih =>
    simp only [List.foldl_cons]
    by_cases hc : c n
    · have h1 : ∀ u, owF c w u n = w n := fun u => by simp [owF, hc]
      rw [h1, h1]
    · have h1 : ∀ u, owF c w u n = u := fun u => by simp [owF, hc]
      rw [h1, h1]
      exact ih v

theorem gdF_of_truthy (c : α → Bool) (w : α → Val) (v : Val) (n : α)
    (hv : v.truthy = true) : gdF c w v n = v := by
  simp [gdF, hv]

theorem gdF_write (c : α → Bool) (w : α → Val) (v : Val) (n : α)
    (hc : c n = true) (hv : v.truthy = false) : gdF c w v n = w n := by
  simp [gdF, hc, hv]

theorem gdF_skip (c : α → Bool) (w : α → Val) (v : Val) (n : α)
    (hc : c n = false) : gdF c w v n = v := by
  simp [gdF, hc]

theorem foldl_gdF_of_truthy (c : α → Bool) (w : α → Val) (l : List α) (v : Val)
    (hv : v.truthy = true) : l.foldl (gdF c w) v = v := by
  induction l with
  | nil => rfl
  | cons n rest ih =>
    simp only [List.foldl_cons]
    rw [gdF_of_truthy c w v n hv]
    exact ih

theorem foldl_gdF_idem (c : α → Bool) (w : α → Val) (l : List α) (v : Val) :
    l.foldl (gdF c w) (l.foldl (gdF c w) v) = l.foldl (gdF c w) v := by
  induction l generalizing v with
  | nil => rfl
  | cons n rest ih =>
    simp only [List.foldl_cons]
    by_cases hu : (List.foldl (gdF c w) (gdF c w v n) rest).truthy
    · rw [gdF_of_truthy c w _ n hu]
      exact foldl_gdF_of_truthy c w rest _ hu
    · rw [Bool.not_eq_true] at hu
      by_cases hv : v.truthy
      · exfalso
        rw [gdF_of_truthy c w v n hv, foldl_gdF_of_truthy c w rest v hv, hv] at hu
        simp at hu
      · rw [Bool.not_eq_true] at hv
        by_cases hc : c n
        · rw [gdF_write c w v n hc hv] at hu ⊢
          rw [gdF_write c w _ n hc hu]
        · rw [Bool.not_eq_true] at hc
          rw [gdF_skip c w v n hc] at hu ⊢
          rw [gdF_skip c w _ n hc]
          exact ih v

theorem foldl_owF_preserve (c : α → Bool) (w : α → Val) (P : Val → Prop)
    (hw : ∀ n, P (w n)) (l : List α) (v : Val) (hv : P v) :
    P (l.foldl (owF c w) v) := by
  induction l generalizing v with
  | nil => exact hv
  | cons n rest ih =>
    simp only [List.foldl_cons]
    by_cases hc : c n
    · exact ih _ (by simpa [owF, hc] using hw n)
    · exact ih _ (by simpa [owF, hc] using hv)

theorem foldl_gdF_preserve (c : α → Bool) (w : α → Val) (P : Val → Prop)
    (hw : ∀ n, P (w n)) (l : List α) (v : Val) (hv : P v) :
    P (l.foldl (gdF c w) v) := by
  induction l generalizing v with
  | nil => exact hv
  | cons n rest ih =>
    simp only [List.foldl_cons, gdF]
    by_cases hc : c n && !v.truthy
    · exact ih _ (by simpa [hc] using hw n)
    · exact ih _ (by simpa [hc] using hv)

theorem foldl_id_val (l : List α) (v : Val) : l.foldl (fun v _ => v) v = v := by
  induction l with
  | nil => rfl
  | cons n rest ih => exact ih

theorem foldl_get_comm (f : Rec → β → Rec) (g : Val → β → Val) (k : String)
    (h : ∀ t b, (f t b).get k = g (t.get k) b) (l : List β) (t : Rec) :
    (l.foldl f t).get k = l.foldl g (t.get k) := by
  induction l generalizing t with
  | nil => rfl
  | cons b rest ih => simp only [List.foldl_cons]; rw [ih, h]

/-! ## Field-wise characterization of `_apply_json_ld` -/

theorem nameStep_get (n : Node) (t : Rec) (k : String) :
    (nameStep n t).get k =
      (if k = "company_name" then
        match clean_text_json (nget n "name") with
        | some s => Val.vstr s
        | none => t.get k
      else t.get k) := by
  unfold nameStep
  by_cases hk : k = "company_name" <;>
    cases h : clean_text_json (nget n "name") <;>
      simp [hk, h, Rec.get_set_self, Rec.get_set_ne]

theorem websiteStep_get (n : Node) (t : Rec) (k : String) :
    (websiteStep n t).get k =
      (if k = "company_website" then
        match clean_text_json (nget n "url") with
        | some s => Val.vstr s
        | none => t.get k
      else t.get k) := by
  unfold websiteStep
  by_cases hk : k = "company_website" <;>
    cases h : clean_text_json (nget n "url") <;>
      simp [hk, h, Rec.get_set_self, Rec.get_set_ne]

/-- The resolved address when it is a dict, as in
`isinstance(address, dict)`. -/
def addrObj (n : Node) : Option Node :=
  match resolvedAddress n with
  | .obj afs => some afs
  | _ => none

/-- The value one address sub-field receives from a matching node. -/
def addrVal (field : String) (n : Node) : Val :=
  match addrObj n with
  | some afs => toVal (clean_text_json (nget afs field))
  | none => .vnone

/-- The value `company_country` receives from a matching node. -/
def addrCountryVal (n : Node) : Val :=
  match addrObj n with
  | some afs => toVal (countryText afs)
  | none => .vnone

/-- The value `company_logo` receives from a node's `logo` entry. -/
def logoVal (n : Node) : Val :=
  match nget n "logo" with
  | .obj lfs => toVal (clean_text_json (nget lfs "url"))
  | j => toVal (clean_text_json j)

/-- The expression `node.get("numberOfEmployees") or node.get("employees")`. -/
def empRaw (n : Node) : Json := jor (nget n "numberOfEmployees") (nget n "employees")

/-- The expression `node.get("employeesRange") or node.get("employeeRange")`. -/
def sizeRaw (n : Node) : Json := jor (nget n "employeesRange") (nget n "employeeRange")

/-- The expression `node.get("foundingLocation") or node.get("location")`. -/
def hqRaw (n : Node) : Json := jor (nget n "foundingLocation") (nget n "location")

/-- The expression `node.get("knowsAbout") or node.get("specialty") or node.get("specialties")`. -/
def spRaw (n : Node) : Json :=
  jor (nget n "knowsAbout") (jor (nget n "specialty") (nget n "specialties"))

/-- The expression `safe_str(node.get("foundingDate") or node.get("foundingYear"))`. -/
def foundedRaw (n : Node) : String := safe_str (jor (nget n "foundingDate") (nget n "foundingYear"))

/-- Whether the headquarters branch matches (dict or string). -/
def hqMatches (n : Node) : Bool :=
  match hqRaw n with
  | .obj _ => true
  | .str _ => true
  | _ => false

/-- The value `company_headquarters` receives when `hqMatches`. -/
def hqVal (n : Node) : Val :=
  match hqRaw n with
  | .obj hfs =>
    toVal (clean_text_json
      (jor (nget hfs "name") (jor (nget hfs "addressLocality") (nget hfs "addressRegion"))))
  | .str s => toVal (clean_text (some s))
  | _ => .vnone

/-- Whether the specialties branch matches (list or string). -/
def spMatches (n : Node) : Bool :=
  match spRaw n with
  | .arr _ => true
  | .str _ => true
  | _ => false

/-- The value `company_specialties` receives when `spMatches`. -/
def spVal (n : Node) : Val :=
  match spRaw n with
  | .arr xs => .vstr (String.intercalate ", " (xs.filterMap clean_text_json))
  | .str s => toVal (clean_text (some s))
  | _ => .vnone

theorem nameStep_get_ne (n : Node) (t : Rec) (k : String) (h : ¬ k = "company_name") :
    (nameStep n t).get k = t.get k := by
  unfold nameStep
  cases clean_text_json (nget n "name") <;> simp [Rec.get_set_ne, h]

theorem websiteStep_get_ne (n : Node) (t : Rec) (k : String) (h : ¬ k = "company_website") :
    (websiteStep n t).get k = t.get k := by
  unfold websiteStep
  cases clean_text_json (nget n "url") <;> simp [Rec.get_set_ne, h]

theorem addressStep_get_ne (n : Node) (t : Rec) (k : String)
    (h1 : ¬ k = "company_address_type") (h2 : ¬ k = "company_street")
    (h3 : ¬ k = "company_locality") (h4 : ¬ k = "company_region")
    (h5 : ¬ k = "company_postal_code") (h6 : ¬ k = "company_country") :
    (addressStep n t).get k = t.get k := by
  unfold addressStep
  cases resolvedAddress n <;> simp [Rec.get_set_ne, h1, h2, h3, h4, h5, h6]

theorem descriptionStep_get_ne (n : Node) (t : Rec) (k : String)
    (h : ¬ k = "company_about_us") :
    (descriptionStep n t).get k = t.get k := by
  unfold descriptionStep
  cases clean_text_json (nget n "description") <;>
    by_cases ht : (t.get "company_about_us").truthy <;> simp [Rec.get_set_ne, h, ht]

theorem employeesStep_get_ne (n : Node) (t : Rec) (k : String)
    (h : ¬ k = "company_employees_on_linkedin") :
    (employeesStep n t).get k = t.get k := by
  unfold employeesStep
  by_cases hc : jtruthy (jor (nget n "numberOfEmployees") (nget n "employees"))
      && !(t.get "company_employees_on_linkedin").truthy <;> simp [Rec.get_set_ne, h, hc]

theorem logoStep_get_ne (n : Node) (t : Rec) (k : String) (h : ¬ k = "company_logo") :
    (logoStep n t).get k = t.get k := by
  unfold logoStep
  by_cases ht : (t.get "company_logo").truthy <;>
    cases hl : nget n "logo" <;> simp [Rec.get_set_ne, h, ht]

theorem industryStep_get_ne (n : Node) (t : Rec) (k : String) (h : ¬ k = "company_industry") :
    (industryStep n t).get k = t.get k := by
  unfold industryStep
  by_cases ht : (t.get "company_industry").truthy <;>
    cases hi : clean_text_json (nget n "industry") <;> simp [Rec.get_set_ne, h, ht]

theorem foundedStep_get_ne (n : Node) (t : Rec) (k : String) (h : ¬ k = "company_founded") :
    (foundedStep n t).get k = t.get k := by
  unfold foundedStep
  by_cases ht : (t.get "company_founded").truthy <;>
    cases hf : extract_year (safe_str (jor (nget n "foundingDate") (nget n "foundingYear"))) <;>
      simp [Rec.get_set_ne, h, ht]

theorem sizeStep_get_ne (n : Node) (t : Rec) (k : String) (h : ¬ k = "company_size") :
    (sizeStep n t).get k = t.get k := by
  unfold sizeStep
  by_cases ht : (t.get "company_size").truthy <;>
    by_cases hs : jtruthy (jor (nget n "employeesRange") (nget n "employeeRange")) <;>
      simp [Rec.get_set_ne, h, ht, hs]

theorem hqStep_get_ne (n : Node) (t : Rec) (k : String) (h : ¬ k = "company_headquarters") :
    (hqStep n t).get k = t.get k := by
  unfold hqStep
  by_cases ht : (t.get "company_headquarters").truthy <;>
    cases hh : jor (nget n "foundingLocation") (nget n "location") <;>
      simp [Rec.get_set_ne, h, ht]

theorem specialtiesStep_get_ne (n : Node) (t : Rec) (k : String)
    (h : ¬ k = "company_specialties") :
    (specialtiesStep n t).get k = t.get k := by
  unfold specialtiesStep
  by_cases ht : (t.get "company_specialties").truthy <;>
    cases hs : jor (nget n "knowsAbout") (jor (nget n "specialty") (nget n "specialties")) <;>
      simp [Rec.get_set_ne, h, ht]

theorem nameStep_get_self (n : Node) (t : Rec) :
    (nameStep n t).get "company_name" =
      (if (clean_text_json (nget n "name")).isSome
       then toVal (clean_text_json (nget n "name")) else t.get "company_name") := by
  cases h : clean_text_json (nget n "name") <;>
    simp [nameStep, h, toVal, Rec.get_set_self]

theorem websiteStep_get_self (n : Node) (t : Rec) :
    (websiteStep n t).get "company_website" =
      (if (clean_text_json (nget n "url")).isSome
       then toVal (clean_text_json (nget n "url")) else t.get "company_website") := by
  cases h : clean_text_json (nget n "url") <;>
    simp [websiteStep, h, toVal, Rec.get_set_self]

theorem addressStep_get_type (n : Node) (t : Rec) :
    (addressStep n t).get "company_address_type" =
      (if (addrObj n).isSome then addrVal "@type" n else t.get "company_address_type") := by
  cases h : resolvedAddress n <;>
    simp [addressStep, addrObj, addrVal, h, Rec.get_set_self, Rec.get_set_ne]

theorem addressStep_get_street (n : Node) (t : Rec) :
    (addressStep n t).get "company_street" =
      (if (addrObj n).isSome then addrVal "streetAddress" n else t.get "company_street") := by
  cases h : resolvedAddress n <;>
    simp [addressStep, addrObj, addrVal, h, Rec.get_set_self, Rec.get_set_ne]

theorem addressStep_get_locality (n : Node) (t : Rec) :
    (addressStep n t).get "company_locality" =
      (if (addrObj n).isSome then addrVal "addressLocality" n else t.get "company_locality") := by
  cases h : resolvedAddress n <;>
    simp [addressStep, addrObj, addrVal, h, Rec.get_set_self, Rec.get_set_ne]

theorem addressStep_get_region (n : Node) (t : Rec) :
    (addressStep n t).get "company_region" =
      (if (addrObj n).isSome then addrVal "addressRegion" n else t.get "company_region") := by
  cases h : resolvedAddress n <;>
    simp [addressStep, addrObj, addrVal, h, Rec.get_set_self, Rec.get_set_ne]

theorem addressStep_get_postal (n : Node) (t : Rec) :
    (addressStep n t).get "company_postal_code" =
      (if (addrObj n).isSome then addrVal "postalCode" n else t.get "company_postal_code") := by
  cases h : resolvedAddress n <;>
    simp [addressStep, addrObj, addrVal, h, Rec.get_set_self, Rec.get_set_ne]

theorem addressStep_get_country (n : Node) (t : Rec) :
    (addressStep n t).get "company_country" =
      (if (addrObj n).isSome then addrCountryVal n else t.get "company_country") := by
  cases h : resolvedAddress n <;>
    simp [addressStep, addrObj, addrCountryVal, h, Rec.get_set_self, Rec.get_set_ne]

theorem descriptionStep_get_self (n : Node) (t : Rec) :
    (descriptionStep n t).get "company_about_us" =
      (if (clean_text_json (nget n "description")).isSome
          && !(t.get "company_about_us").truthy
       then toVal (clean_text_json (nget n "description"))
       else t.get "company_about_us") := by
  cases h : clean_text_json (nget n "description") <;>
    by_cases ht : (t.get "company_about_us").truthy <;>
      simp [descriptionStep, h, ht, toVal, Rec.get_set_self]

theorem employeesStep_get_self (n : Node) (t : Rec) :
    (employeesStep n t).get "company_employees_on_linkedin" =
      (if jtruthy (empRaw n) && !(t.get "company_employees_on_linkedin").truthy
       then intToVal (safe_int (empRaw n)) else t.get "company_employees_on_linkedin") := by
  unfold employeesStep empRaw
  by_cases hc : jtruthy (jor (nget n "numberOfEmployees") (nget n "employees")) <;>
    by_cases ht : (t.get "company_employees_on_linkedin").truthy <;>
      simp [hc, ht, Rec.get_set_self]

theorem logoStep_get_self (n : Node) (t : Rec) :
    (logoStep n t).get "company_logo" =
      (if (t.get "company_logo").truthy then t.get "company_logo" else logoVal n) := by
  unfold logoStep logoVal
  by_cases ht : (t.get "company_logo").truthy <;>
    cases hl : nget n "logo" <;> simp [ht, hl, Rec.get_set_self]

theorem industryStep_get_self (n : Node) (t : Rec) :
    (industryStep n t).get "company_industry" =
      (if (clean_text_json (nget n "industry")).isSome && !(t.get "company_industry").truthy
       then toVal (clean_text_json (nget n "industry")) else t.get "company_industry") := by
  cases h : clean_text_json (nget n "industry") <;>
    by_cases ht : (t.get "company_industry").truthy <;>
      simp [industryStep, h, ht, toVal, Rec.get_set_self]

theorem foundedStep_get_self (n : Node) (t : Rec) :
    (foundedStep n t).get "company_founded" =
      (if (extract_year (foundedRaw n)).isSome && !(t.get "company_founded").truthy
       then intToVal (extract_year (foundedRaw n)) else t.get "company_founded") := by
  unfold foundedStep foundedRaw
  cases h : extract_year (safe_str (jor (nget n "foundingDate") (nget n "foundingYear"))) <;>
    by_cases ht : (t.get "company_founded").truthy <;>
      simp [h, ht, intToVal, Rec.get_set_self]

theorem sizeStep_get_self (n : Node) (t : Rec) :
    (sizeStep n t).get "company_size" =
      (if jtruthy (sizeRaw n) && !(t.get "company_size").truthy
       then toVal (clean_text_json (sizeRaw n)) else t.get "company_size") := by
  unfold sizeStep sizeRaw
  by_cases hs : jtruthy (jor (nget n "employeesRange") (nget n "employeeRange")) <;>
    by_cases ht : (t.get "company_size").truthy <;>
      simp [hs, ht, Rec.get_set_self]

theorem hqStep_get_self (n : Node) (t : Rec) :
    (hqStep n t).get "company_headquarters" =
      (if hqMatches n && !(t.get "company_headquarters").truthy
       then hqVal n else t.get "company_headquarters") := by
  unfold hqStep hqMatches hqVal hqRaw
  by_cases ht : (t.get "company_headquarters").truthy <;>
    cases hh : jor (nget n "foundingLocation") (nget n "location") <;>
      simp [ht, hh, Rec.get_set_self]

theorem specialtiesStep_get_self (n : Node) (t : Rec) :
    (specialtiesStep n t).get "company_specialties" =
      (if spMatches n && !(t.get "company_specialties").truthy
       then spVal n else t.get "company_specialties") := by
  unfold specialtiesStep spMatches spVal spRaw
  by_cases ht : (t.get "company_specialties").truthy <;>
    cases hs : jor (nget n "knowsAbout") (jor (nget n "specialty") (nget n "specialties")) <;>
      simp [ht, hs, Rec.get_set_self]

theorem apply_get_name (n : Node) (t : Rec) :
    (apply_json_ld n t).get "company_name" =
      owF (fun n => isCompanyType n && (clean_text_json (nget n "name")).isSome)
          (fun n => toVal (clean_text_json (nget n "name")))
          (t.get "company_name") n := by
  unfold apply_json_ld
  by_cases hOrg : isCompanyType n
  · rw [if_pos hOrg, specialtiesStep_get_ne _ _ _ (by decide), hqStep_get_ne _ _ _ (by decide),
      sizeStep_get_ne _ _ _ (by decide), foundedStep_get_ne _ _ _ (by decide),
      industryStep_get_ne _ _ _ (by decide), logoStep_get_ne _ _ _ (by decide),
      employeesStep_get_ne _ _ _ (by decide), descriptionStep_get_ne _ _ _ (by decide),
      addressStep_get_ne _ _ _ (by decide) (by decide) (by decide) (by decide) (by decide)
        (by decide),
      websiteStep_get_ne _ _ _ (by decide), nameStep_get_self]
    simp [owF, hOrg]
  · rw [if_neg hOrg]; simp [owF, hOrg]

theorem apply_get_about (n : Node) (t : Rec) :
    (apply_json_ld n t).get "company_about_us" =
      gdF (fun n => isCompanyType n && (clean_text_json (nget n "description")).isSome)
          (fun n => toVal (clean_text_json (nget n "description")))
          (t.get "company_about_us") n := by
  unfold apply_json_ld
  by_cases hOrg : isCompanyType n
  · rw [if_pos hOrg, specialtiesStep_get_ne _ _ _ (by decide), hqStep_get_ne _ _ _ (by decide),
      sizeStep_get_ne _ _ _ (by decide), foundedStep_get_ne _ _ _ (by decide),
      industryStep_get_ne _ _ _ (by decide), logoStep_get_ne _ _ _ (by decide),
      employeesStep_get_ne _ _ _ (by decide), descriptionStep_get_self,
      addressStep_get_ne _ _ _ (by decide) (by decide) (by decide) (by decide) (by decide)
        (by decide),
      websiteStep_get_ne _ _ _ (by decide), nameStep_get_ne _ _ _ (by decide)]
    simp [gdF, hOrg]
  · rw [if_neg hOrg]; simp [gdF, hOrg]

theorem apply_get_website (n : Node) (t : Rec) :
    (apply_json_ld n t).get "company_website" =
      owF (fun n => isCompanyType n && (clean_text_json (nget n "url")).isSome)
          (fun n => toVal (clean_text_json (nget n "url")))
          (t.get "company_website") n := by
  unfold apply_json_ld
  by_cases hOrg : isCompanyType n
  · rw [if_pos hOrg, specialtiesStep_get_ne _ _ _ (by decide), hqStep_get_ne _ _ _ (by decide),
      sizeStep_get_ne _ _ _ (by decide), foundedStep_get_ne _ _ _ (by decide),
      industryStep_get_ne _ _ _ (by decide), logoStep_get_ne _ _ _ (by decide),
      employeesStep_get_ne _ _ _ (by decide), descriptionStep_get_ne _ _ _ (by decide),
      addressStep_get_ne _ _ _ (by decide) (by decide) (by decide) (by decide) (by decide)
        (by decide),
      websiteStep_get_self, nameStep_get_ne _ _ _ (by decide)]
    simp [owF, hOrg]
  · rw [if_neg hOrg]; simp [owF, hOrg]

theorem apply_get_addr_type (n : Node) (t : Rec) :
    (apply_json_ld n t).get "company_address_type" =
      owF (fun n => isCompanyType n && (addrObj n).isSome) (addrVal "@type")
          (t.get "company_address_type") n := by
  unfold apply_json_ld
  by_cases hOrg : isCompanyType n
  · rw [if_pos hOrg, specialtiesStep_get_ne _ _ _ (by decide), hqStep_get_ne _ _ _ (by decide),
      sizeStep_get_ne _ _ _ (by decide), foundedStep_get_ne _ _ _ (by decide),
      industryStep_get_ne _ _ _ (by decide), logoStep_get_ne _ _ _ (by decide),
      employeesStep_get_ne _ _ _ (by decide), descriptionStep_get_ne _ _ _ (by decide),
      addressStep_get_type, websiteStep_get_ne _ _ _ (by decide),
      nameStep_get_ne _ _ _ (by decide)]
    simp [owF, hOrg]
  · rw [if_neg hOrg]; simp [owF, hOrg]

theorem apply_get_street (n : Node) (t : Rec) :
    (apply_json_ld n t).get "company_street" =
      owF (fun n => isCompanyType n && (addrObj n).isSome) (addrVal "streetAddress")
          (t.get "company_street") n := by
  unfold apply_json_ld
  by_cases hOrg : isCompanyType n
  · rw [if_pos hOrg, specialtiesStep_get_ne _ _ _ (by decide), hqStep_get_ne _ _ _ (by decide),
      sizeStep_get_ne _ _ _ (by decide), foundedStep_get_ne _ _ _ (by decide),
      industryStep_get_ne _ _ _ (by decide), logoStep_get_ne _ _ _ (by decide),
      employeesStep_get_ne _ _ _ (by decide), descriptionStep_get_ne _ _ _ (by decide),
      addressStep_get_street, websiteStep_get_ne _ _ _ (by decide),
      nameStep_get_ne _ _ _ (by decide)]
    simp [owF, hOrg]
  · rw [if_neg hOrg]; simp [owF, hOrg]

theorem apply_get_locality (n : Node) (t : Rec) :
    (apply_json_ld n t).get "company_locality" =
      owF (fun n => isCompanyType n && (addrObj n).isSome) (addrVal "addressLocality")
          (t.get "company_locality") n := by
  unfold apply_json_ld
  by_cases hOrg : isCompanyType n
  · rw [if_pos hOrg, specialtiesStep_get_ne _ _ _ (by decide), hqStep_get_ne _ _ _ (by decide),
      sizeStep_get_ne _ _ _ (by decide), foundedStep_get_ne _ _ _ (by decide),
      industryStep_get_ne _ _ _ (by decide), logoStep_get_ne _ _ _ (by decide),
      employeesStep_get_ne _ _ _ (by decide), descriptionStep_get_ne _ _ _ (by decide),
      addressStep_get_locality, websiteStep_get_ne _ _ _ (by decide),
      nameStep_get_ne _ _ _ (by decide)]
    simp [owF, hOrg]
  · rw [if_neg hOrg]; simp [owF, hOrg]

theorem apply_get_region (n : Node) (t : Rec) :
    (apply_json_ld n t).get "company_region" =
      owF (fun n => isCompanyType n && (addrObj n).isSome) (addrVal "addressRegion")
          (t.get "company_region") n := by
  unfold apply_json_ld
  by_cases hOrg : isCompanyType n
  · rw [if_pos hOrg, specialtiesStep_get_ne _ _ _ (by decide), hqStep_get_ne _ _ _ (by decide),
      sizeStep_get_ne _ _ _ (by decide), foundedStep_get_ne _ _ _ (by decide),
      industryStep_get_ne _ _ _ (by decide), logoStep_get_ne _ _ _ (by decide),
      employeesStep_get_ne _ _ _ (by decide), descriptionStep_get_ne _ _ _ (by decide),
      addressStep_get_region, websiteStep_get_ne _ _ _ (by decide),
      nameStep_get_ne _ _ _ (by decide)]
    simp [owF, hOrg]
  · rw [if_neg hOrg]; simp [owF, hOrg]

theorem apply_get_postal (n : Node) (t : Rec) :
    (apply_json_ld n t).get "company_postal_code" =
      owF (fun n => isCompanyType n && (addrObj n).isSome) (addrVal "postalCode")
          (t.get "company_postal_code") n := by
  unfold apply_json_ld
  by_cases hOrg : isCompanyType n
  · rw [if_pos hOrg, specialtiesStep_get_ne _ _ _ (by decide), hqStep_get_ne _ _ _ (by decide),
      sizeStep_get_ne _ _ _ (by decide), foundedStep_get_ne _ _ _ (by decide),
      industryStep_get_ne _ _ _ (by decide), logoStep_get_ne _ _ _ (by decide),
      employeesStep_get_ne _ _ _ (by decide), descriptionStep_get_ne _ _ _ (by decide),
      addressStep_get_postal, websiteStep_get_ne _ _ _ (by decide),
      nameStep_get_ne _ _ _ (by decide)]
    simp [owF, hOrg]
  · rw [if_neg hOrg]; simp [owF, hOrg]

theorem apply_get_country (n : Node) (t : Rec) :
    (apply_json_ld n t).get "company_country" =
      owF (fun n => isCompanyType n && (addrObj n).isSome) addrCountryVal
          (t.get "company_country") n := by
  unfold apply_json_ld
  by_cases hOrg : isCompanyType n
  · rw [if_pos hOrg, specialtiesStep_get_ne _ _ _ (by decide), hqStep_get_ne _ _ _ (by decide),
      sizeStep_get_ne _ _ _ (by decide), foundedStep_get_ne _ _ _ (by decide),
      industryStep_get_ne _ _ _ (by decide), logoStep_get_ne _ _ _ (by decide),
      employeesStep_get_ne _ _ _ (by decide), descriptionStep_get_ne _ _ _ (by decide),
      addressStep_get_country, websiteStep_get_ne _ _ _ (by decide),
      nameStep_get_ne _ _ _ (by decide)]
    simp [owF, hOrg]
  · rw [if_neg hOrg]; simp [owF, hOrg]

theorem apply_get_employees (n : Node) (t : Rec) :
    (apply_json_ld n t).get "company_employees_on_linkedin" =
      gdF (fun n => isCompanyType n && jtruthy (empRaw n))
          (fun n => intToVal (safe_int (empRaw n)))
          (t.get "company_employees_on_linkedin") n := by
  unfold apply_json_ld
  by_cases hOrg : isCompanyType n
  · rw [if_pos hOrg, specialtiesStep_get_ne _ _ _ (by decide), hqStep_get_ne _ _ _ (by decide),
      sizeStep_get_ne _ _ _ (by decide), foundedStep_get_ne _ _ _ (by decide),
      industryStep_get_ne _ _ _ (by decide), logoStep_get_ne _ _ _ (by decide),
      employeesStep_get_self, descriptionStep_get_ne _ _ _ (by decide),
      addressStep_get_ne _ _ _ (by decide) (by decide) (by decide) (by decide) (by decide)
        (by decide),
      websiteStep_get_ne _ _ _ (by decide), nameStep_get_ne _ _ _ (by decide)]
    simp [gdF, hOrg]
  · rw [if_neg hOrg]; simp [gdF, hOrg]

theorem apply_get_logo (n : Node) (t : Rec) :
    (apply_json_ld n t).get "company_logo" =
      gdF (fun n => isCompanyType n) logoVal (t.get "company_logo") n := by
  unfold apply_json_ld
  by_cases hOrg : isCompanyType n
  · rw [if_pos hOrg, specialtiesStep_get_ne _ _ _ (by decide), hqStep_get_ne _ _ _ (by decide),
      sizeStep_get_ne _ _ _ (by decide), foundedStep_get_ne _ _ _ (by decide),
      industryStep_get_ne _ _ _ (by decide), logoStep_get_self,
      employeesStep_get_ne _ _ _ (by decide), descriptionStep_get_ne _ _ _ (by decide),
      addressStep_get_ne _ _ _ (by decide) (by decide) (by decide) (by decide) (by decide)
        (by decide),
      websiteStep_get_ne _ _ _ (by decide), nameStep_get_ne _ _ _ (by decide)]
    by_cases ht : (t.get "company_logo").truthy <;> simp [gdF, hOrg, ht]
  · rw [if_neg hOrg]; simp [gdF, hOrg]

theorem apply_get_industry (n : Node) (t : Rec) :
    (apply_json_ld n t).get "company_industry" =
      gdF (fun n => isCompanyType n && (clean_text_json (nget n "industry")).isSome)
          (fun n => toVal (clean_text_json (nget n "industry")))
          (t.get "company_industry") n := by
  unfold apply_json_ld
  by_cases hOrg : isCompanyType n
  · rw [if_pos hOrg, specialtiesStep_get_ne _ _ _ (by decide), hqStep_get_ne _ _ _ (by decide),
      sizeStep_get_ne _ _ _ (by decide), foundedStep_get_ne _ _ _ (by decide),
      industryStep_get_self, logoStep_get_ne _ _ _ (by decide),
      employeesStep_get_ne _ _ _ (by decide), descriptionStep_get_ne _ _ _ (by decide),
      addressStep_get_ne _ _ _ (by decide) (by decide) (by decide) (by decide) (by decide)
        (by decide),
      websiteStep_get_ne _ _ _ (by decide), nameStep_get_ne _ _ _ (by decide)]
    simp [gdF, hOrg]
  · rw [if_neg hOrg]; simp [gdF, hOrg]

theorem apply_get_founded (n : Node) (t : Rec) :
    (apply_json_ld n t).get "company_founded" =
      gdF (fun n => isCompanyType n && (extract_year (foundedRaw n)).isSome)
          (fun n => intToVal (extract_year (foundedRaw n)))
          (t.get "company_founded") n := by
  unfold apply_json_ld
  by_cases hOrg : isCompanyType n
  · rw [if_pos hOrg, specialtiesStep_get_ne _ _ _ (by decide), hqStep_get_ne _ _ _ (by decide),
      sizeStep_get_ne _ _ _ (by decide), foundedStep_get_self,
      industryStep_get_ne _ _ _ (by decide), logoStep_get_ne _ _ _ (by decide),
      employeesStep_get_ne _ _ _ (by decide), descriptionStep_get_ne _ _ _ (by decide),
      addressStep_get_ne _ _ _ (by decide) (by decide) (by decide) (by decide) (by decide)
        (by decide),
      websiteStep_get_ne _ _ _ (by decide), nameStep_get_ne _ _ _ (by decide)]
    simp [gdF, hOrg]
  · rw [if_neg hOrg]; simp [gdF, hOrg]

theorem apply_get_size (n : Node) (t : Rec) :
    (apply_json_ld n t).get "company_size" =
      gdF (fun n => isCompanyType n && jtruthy (sizeRaw n))
          (fun n => toVal (clean_text_json (sizeRaw n)))
          (t.get "company_size") n := by
  unfold apply_json_ld
  by_cases hOrg : isCompanyType n
  · rw [if_pos hOrg, specialtiesStep_get_ne _ _ _ (by decide), hqStep_get_ne _ _ _ (by decide),
      sizeStep_get_self, foundedStep_get_ne _ _ _ (by decide),
      industryStep_get_ne _ _ _ (by decide), logoStep_get_ne _ _ _ (by decide),
      employeesStep_get_ne _ _ _ (by decide), descriptionStep_get_ne _ _ _ (by decide),
      addressStep_get_ne _ _ _ (by decide) (by decide) (by decide) (by decide) (by decide)
        (by decide),
      websiteStep_get_ne _ _ _ (by decide), nameStep_get_ne _ _ _ (by decide)]
    simp [gdF, hOrg]
  · rw [if_neg hOrg]; simp [gdF, hOrg]

theorem apply_get_hq (n : Node) (t : Rec) :
    (apply_json_ld n t).get "company_headquarters" =
      gdF (fun n => isCompanyType n && hqMatches n) hqVal
          (t.get "company_headquarters") n := by
  unfold apply_json_ld
  by_cases hOrg : isCompanyType n
  · rw [if_pos hOrg, specialtiesStep_get_ne _ _ _ (by decide), hqStep_get_self,
      sizeStep_get_ne _ _ _ (by decide), foundedStep_get_ne _ _ _ (by decide),
      industryStep_get_ne _ _ _ (by decide), logoStep_get_ne _ _ _ (by decide),
      employeesStep_get_ne _ _ _ (by decide), descriptionStep_get_ne _ _ _ (by decide),
      addressStep_get_ne _ _ _ (by decide) (by decide) (by decide) (by decide) (by decide)
        (by decide),
      websiteStep_get_ne _ _ _ (by decide), nameStep_get_ne _ _ _ (by decide)]
    simp [gdF, hOrg]
  · rw [if_neg hOrg]; simp [gdF, hOrg]

theorem apply_get_specialties (n : Node) (t : Rec) :
    (apply_json_ld n t).get "company_specialties" =
      gdF (fun n => isCompanyType n && spMatches n) spVal
          (t.get "company_specialties") n := by
  unfold apply_json_ld
  by_cases hOrg : isCompanyType n
  · rw [if_pos hOrg, specialtiesStep_get_self, hqStep_get_ne _ _ _ (by decide),
      sizeStep_get_ne _ _ _ (by decide), foundedStep_get_ne _ _ _ (by decide),
      industryStep_get_ne _ _ _ (by decide), logoStep_get_ne _ _ _ (by decide),
      employeesStep_get_ne _ _ _ (by decide), descriptionStep_get_ne _ _ _ (by decide),
      addressStep_get_ne _ _ _ (by decide) (by decide) (by decide) (by decide) (by decide)
        (by decide),
      websiteStep_get_ne _ _ _ (by decide), nameStep_get_ne _ _ _ (by decide)]
    simp [gdF, hOrg]
  · rw [if_neg hOrg]; simp [gdF, hOrg]

/-- The sixteen record fields `_apply_json_ld` can write. -/
def LD_KEYS : List String :=
  ["company_name", "company_website", "company_address_type", "company_street",
   "company_locality", "company_region", "company_postal_code", "company_country",
   "company_about_us", "company_employees_on_linkedin", "company_logo",
   "company_industry", "company_founded", "company_size", "company_headquarters",
   "company_specialties"]

theorem apply_get_frame (n : Node) (t : Rec) (k : String) (h : ¬ k ∈ LD_KEYS) :
    (apply_json_ld n t).get k = t.get k := by
  simp only [LD_KEYS, List.mem_cons, List.not_mem_nil, or_false, not_or] at h
  obtain ⟨h1, h2, h3, h4, h5, h6, h7, h8, h9, h10, h11, h12, h13, h14, h15, h16⟩ := h
  unfold apply_json_ld
  by_cases hOrg : isCompanyType n
  · rw [if_pos hOrg, specialtiesStep_get_ne _ _ _ h16, hqStep_get_ne _ _ _ h15,
      sizeStep_get_ne _ _ _ h14, foundedStep_get_ne _ _ _ h13,
      industryStep_get_ne _ _ _ h12, logoStep_get_ne _ _ _ h11,
      employeesStep_get_ne _ _ _ h10, descriptionStep_get_ne _ _ _ h9,
      addressStep_get_ne _ _ _ h3 h4 h5 h6 h7 h8,
      websiteStep_get_ne _ _ _ h2, nameStep_get_ne _ _ _ h1]
  · rw [if_neg hOrg]

/-! ## `_parse_from_json_ld` as a fold over candidate nodes -/

/-- The dict entries of a parsed JSON-LD list, in order. -/
def objNodes (es : List Json) : List Node :=
  es.filterMap (fun e => match e with | .obj fs => some fs | _ => none)

/-- The candidate nodes contributed by one script block. -/
def blockNodes : Option Json → List Node
  | some (.arr es) => objNodes es
  | some (.obj fs) => [fs]
  | _ => []

/-- All candidate nodes of a document, in scan order. -/
def candidateNodes (blocks : List (Option Json)) : List Node :=
  blocks.foldr (fun b acc => blockNodes b ++ acc) []

theorem applyEntries_eq (entries : List Json) (t : Rec) :
    applyEntries entries t = (objNodes entries).foldl (fun acc n => apply_json_ld n acc) t := by
  induction entries generalizing t with
  | nil => rfl
  | cons e es ih =>
    cases e with
    | obj fs => simpa [applyEntries, objNodes] using ih (apply_json_ld fs t)
    | null => simpa [applyEntries, objNodes] using ih t
    | jbool b => simpa [applyEntries, objNodes] using ih t
    | num m => simpa [applyEntries, objNodes] using ih t
    | str s => simpa [applyEntries, objNodes] using ih t
    | arr xs => simpa [applyEntries, objNodes] using ih t

theorem parse_from_json_ld_eq (blocks : List (Option Json)) (t : Rec) :
    parse_from_json_ld blocks t =
      (candidateNodes blocks).foldl (fun acc n => apply_json_ld n acc) t := by
  induction blocks generalizing t with
  | nil => rfl
  | cons b bs ih =>
    cases b with
    | none =>
      have h1 : parse_from_json_ld (none :: bs) t = parse_from_json_ld bs t := rfl
      rw [h1, ih]
      simp [candidateNodes, blockNodes]
    | some j =>
      cases j with
      | arr es =>
        have h1 : parse_from_json_ld (some (Json.arr es) :: bs) t
            = parse_from_json_ld bs (applyEntries es t) := rfl
        rw [h1, ih, applyEntries_eq]
        simp [candidateNodes, blockNodes, List.foldl_append]
      | obj fs =>
        have h1 : parse_from_json_ld (some (Json.obj fs) :: bs) t
            = parse_from_json_ld bs (apply_json_ld fs t) := rfl
        rw [h1, ih]
        simp [candidateNodes, blockNodes]
      | null =>
        have h1 : parse_from_json_ld (some Json.null :: bs) t = parse_from_json_ld bs t := rfl
        rw [h1, ih]; simp [candidateNodes, blockNodes]
      | jbool b2 =>
        have h1 : parse_from_json_ld (some (Json.jbool b2) :: bs) t
            = parse_from_json_ld bs t := rfl
        rw [h1, ih]; simp [candidateNodes, blockNodes]
      | num m =>
        have h1 : parse_from_json_ld (some (Json.num m) :: bs) t
            = parse_from_json_ld bs t := rfl
        rw [h1, ih]; simp [candidateNodes, blockNodes]
      | str s =>
        have h1 : parse_from_json_ld (some (Json.str s) :: bs) t
            = parse_from_json_ld bs t := rfl
        rw [h1, ih]; simp [candidateNodes, blockNodes]

/-- C6: running the structured-data extractor a second time over the
same script blocks changes nothing at all — in particular no field
other than the overwrite pair can change, and on an identical document
even `company_name`/`company_website` are rewritten to the values they
already hold.  Stated observationally: every key of the record reads
the same after one and after two applications. -/
theorem claim6_idempotent (blocks : List (Option Json)) (t : Rec) (k : String) :
    (parse_from_json_ld blocks (parse_from_json_ld blocks t)).get k =
      (parse_from_json_ld blocks t).get k := by
  rw [parse_from_json_ld_eq, parse_from_json_ld_eq]
  by_cases hk : k ∈ LD_KEYS
  · simp only [LD_KEYS, List.mem_cons, List.not_mem_nil, or_false] at hk
    rcases hk with rfl | rfl | rfl | rfl | rfl | rfl | rfl | rfl | rfl | rfl | rfl | rfl
      | rfl | rfl | rfl | rfl
    · rw [foldl_get_comm _ _ _ (fun t b => apply_get_name b t),
          foldl_get_comm _ _ _ (fun t b => apply_get_name b t)]
      exact foldl_owF_idem _ _ _ _
    · rw [foldl_get_comm _ _ _ (fun t b => apply_get_website b t),
          foldl_get_comm _ _ _ (fun t b => apply_get_website b t)]
      exact foldl_owF_idem _ _ _ _
    · rw [foldl_get_comm _ _ _ (fun t b => apply_get_addr_type b t),
          foldl_get_comm _ _ _ (fun t b => apply_get_addr_type b t)]
      exact foldl_owF_idem _ _ _ _
    · rw [foldl_get_comm _ _ _ (fun t b => apply_get_street b t),
          foldl_get_comm _ _ _ (fun t b => apply_get_street b t)]
      exact foldl_owF_idem _ _ _ _
    · rw [foldl_get_comm _ _ _ (fun t b => apply_get_locality b t),
          foldl_get_comm _ _ _ (fun t b => apply_get_locality b t)]
      exact foldl_owF_idem _ _ _ _
    · rw [foldl_get_comm _ _ _ (fun t b => apply_get_region b t),
          foldl_get_comm _ _ _ (fun t b => apply_get_region b t)]
      exact foldl_owF_idem _ _ _ _
    · rw [foldl_get_comm _ _ _ (fun t b => apply_get_postal b t),
          foldl_get_comm _ _ _ (fun t b => apply_get_postal b t)]
      exact foldl_owF_idem _ _ _ _
    · rw [foldl_get_comm _ _ _ (fun t b => apply_get_country b t),
          foldl_get_comm _ _ _ (fun t b => apply_get_country b t)]
      exact foldl_owF_idem _ _ _ _
    · rw [foldl_get_comm _ _ _ (fun t b => apply_get_about b t),
          foldl_get_comm _ _ _ (fun t b => apply_get_about b t)]
      exact foldl_gdF_idem _ _ _ _
    · rw [foldl_get_comm _ _ _ (fun t b => apply_get_employees b t),
          foldl_get_comm _ _ _ (fun t b => apply_get_employees b t)]
      exact foldl_gdF_idem _ _ _ _
    · rw [foldl_get_comm _ _ _ (fun t b => apply_get_logo b t),
          foldl_get_comm _ _ _ (fun t b => apply_get_logo b t)]
      exact foldl_gdF_idem _ _ _ _
    · rw [foldl_get_comm _ _ _ (fun t b => apply_get_industry b t),
          foldl_get_comm _ _ _ (fun t b => apply_get_industry b t)]
      exact foldl_gdF_idem _ _ _ _
    · rw [foldl_get_comm _ _ _ (fun t b => apply_get_founded b t),
          foldl_get_comm _ _ _ (fun t b => apply_get_founded b t)]
      exact foldl_gdF_idem _ _ _ _
    · rw [foldl_get_comm _ _ _ (fun t b => apply_get_size b t),
          foldl_get_comm _ _ _ (fun t b => apply_get_size b t)]
      exact foldl_gdF_idem _ _ _ _
    · rw [foldl_get_comm _ _ _ (fun t b => apply_get_hq b t),
          foldl_get_comm _ _ _ (fun t b => apply_get_hq b t)]
      exact foldl_gdF_idem _ _ _ _
    · rw [foldl_get_comm _ _ _ (fun t b => apply_get_specialties b t),
          foldl_get_comm _ _ _ (fun t b => apply_get_specialties b t)]
      exact foldl_gdF_idem _ _ _ _
  · rw [foldl_get_comm _ (fun v _ => v) _ (fun t b => apply_get_frame b t k hk)]
    exact foldl_id_val _ _

/-! ## Field-wise lemmas for `_parse_from_meta_and_title` -/

theorem titleStep_get_ne (d : Doc) (t : Rec) (k : String) (h : ¬ k = "company_name") :
    (titleStep d t).get k = t.get k := by
  unfold titleStep
  repeat' split
  all_goals simp [Rec.get_set_ne, h]

theorem descMetaStep_get_ne (d : Doc) (t : Rec) (k : String)
    (h1 : ¬ k = "company_about_us") (h2 : ¬ k = "company_twitter_description") :
    (descMetaStep d t).get k = t.get k := by
  unfold descMetaStep
  by_cases ha : (Rec.get t "company_about_us").truthy
  · rw [if_pos ha]
  · rw [if_neg ha]
    cases hf : find_meta_content d.metas ["description", "og:description"] with
    | none => rfl
    | some desc =>
      simp only
      by_cases htw : ((t.set "company_about_us" (toVal (clean_text (some desc)))).get
          "company_twitter_description").truthy
      · rw [if_pos htw, Rec.get_set_ne _ _ _ _ h1]
      · rw [if_neg htw, Rec.get_set_ne _ _ _ _ h2, Rec.get_set_ne _ _ _ _ h1]

theorem logoMetaStep_get_ne (d : Doc) (t : Rec) (k : String) (h : ¬ k = "company_logo") :
    (logoMetaStep d t).get k = t.get k := by
  unfold logoMetaStep
  repeat' split
  all_goals simp [Rec.get_set_ne, h]

theorem coverMetaStep_get_ne (d : Doc) (t : Rec) (k : String)
    (h : ¬ k = "company_cover_image") :
    (coverMetaStep d t).get k = t.get k := by
  unfold coverMetaStep
  repeat' split
  all_goals simp [Rec.get_set_ne, h]

theorem sloganStep_get_ne (d : Doc) (t : Rec) (k : String) (h : ¬ k = "company_slogan") :
    (sloganStep d t).get k = t.get k := by
  unfold sloganStep
  repeat' split
  all_goals simp [Rec.get_set_ne, h]

theorem followersStep_get_ne (d : Doc) (t : Rec) (k : String)
    (h : ¬ k = "company_followers_on_linkedin") :
    (followersStep d t).get k = t.get k := by
  unfold followersStep
  repeat' split
  all_goals simp [Rec.get_set_ne, h]

theorem employeesHeurStep_get_ne (d : Doc) (t : Rec) (k : String)
    (h : ¬ k = "company_employees_on_linkedin") :
    (employeesHeurStep d t).get k = t.get k := by
  unfold employeesHeurStep
  repeat' split
  all_goals simp [Rec.get_set_ne, h]

theorem countersStep_get_ne (d : Doc) (t : Rec) (k : String)
    (h1 : ¬ k = "company_followers_on_linkedin")
    (h2 : ¬ k = "company_employees_on_linkedin") :
    (countersStep d t).get k = t.get k := by
  unfold countersStep
  by_cases hb : d.bodyText = ""
  · rw [if_pos hb]
  · rw [if_neg hb, employeesHeurStep_get_ne _ _ _ h2, followersStep_get_ne _ _ _ h1]

/-- The eight record fields the heuristic pass can write. -/
def META_KEYS : List String :=
  ["company_name", "company_about_us", "company_twitter_description", "company_logo",
   "company_cover_image", "company_slogan", "company_followers_on_linkedin",
   "company_employees_on_linkedin"]

theorem meta_get_frame (d : Doc) (t : Rec) (k : String) (h : ¬ k ∈ META_KEYS) :
    (parse_from_meta_and_title d t).get k = t.get k := by
  simp only [META_KEYS, List.mem_cons, List.not_mem_nil, or_false, not_or] at h
  obtain ⟨h1, h2, h3, h4, h5, h6, h7, h8⟩ := h
  unfold parse_from_meta_and_title
  rw [countersStep_get_ne _ _ _ h7 h8, sloganStep_get_ne _ _ _ h6,
      coverMetaStep_get_ne _ _ _ h5, logoMetaStep_get_ne _ _ _ h4,
      descMetaStep_get_ne _ _ _ h2 h3, titleStep_get_ne _ _ _ h1]

theorem titleStep_preserve (d : Doc) (t : Rec) (k : String)
    (h : (Rec.get t k).truthy = true) : (titleStep d t).get k = t.get k := by
  by_cases hk : k = "company_name"
  · subst hk; unfold titleStep; rw [if_pos h]
  · exact titleStep_get_ne d t k hk

theorem descMetaStep_preserve (d : Doc) (t : Rec) (k : String)
    (h : (Rec.get t k).truthy = true) : (descMetaStep d t).get k = t.get k := by
  by_cases h1 : k = "company_about_us"
  · subst h1; unfold descMetaStep; rw [if_pos h]
  · by_cases h2 : k = "company_twitter_description"
    · subst h2
      unfold descMetaStep
      by_cases ha : (Rec.get t "company_about_us").truthy
      · rw [if_pos ha]
      · rw [if_neg ha]
        cases hf : find_meta_content d.metas ["description", "og:description"] with
        | none => rfl
        | some desc =>
          simp only
          have htw : ((t.set "company_about_us" (toVal (clean_text (some desc)))).get
              "company_twitter_description").truthy = true := by
            rw [Rec.get_set_ne _ _ _ _ (by decide)]; exact h
          rw [if_pos htw, Rec.get_set_ne _ _ _ _ (by decide)]
    · exact descMetaStep_get_ne d t k h1 h2

theorem logoMetaStep_preserve (d : Doc) (t : Rec) (k : String)
    (h : (Rec.get t k).truthy = true) : (logoMetaStep d t).get k = t.get k := by
  by_cases hk : k = "company_logo"
  · subst hk; unfold logoMetaStep; rw [if_pos h]
  · exact logoMetaStep_get_ne d t k hk

theorem coverMetaStep_preserve (d : Doc) (t : Rec) (k : String)
    (h : (Rec.get t k).truthy = true) : (coverMetaStep d t).get k = t.get k := by
  by_cases hk : k = "company_cover_image"
  · subst hk; unfold coverMetaStep; rw [if_pos h]
  · exact coverMetaStep_get_ne d t k hk

theorem sloganStep_preserve (d : Doc) (t : Rec) (k : String)
    (h : (Rec.get t k).truthy = true) : (sloganStep d t).get k = t.get k := by
  by_cases hk : k = "company_slogan"
  · subst hk; unfold sloganStep; rw [if_pos h]
  · exact sloganStep_get_ne d t k hk

theorem followersStep_preserve (d : Doc) (t : Rec) (k : String)
    (h : (Rec.get t k).truthy = true) : (followersStep d t).get k = t.get k := by
  by_cases hk : k = "company_followers_on_linkedin"
  · subst hk; unfold followersStep; rw [if_pos h]
  · exact followersStep_get_ne d t k hk

theorem employeesHeurStep_preserve (d : Doc) (t : Rec) (k : String)
    (h : (Rec.get t k).truthy = true) : (employeesHeurStep d t).get k = t.get k := by
  by_cases hk : k = "company_employees_on_linkedin"
  · subst hk; unfold employeesHeurStep; rw [if_pos h]
  · exact employeesHeurStep_get_ne d t k hk

theorem countersStep_preserve (d : Doc) (t : Rec) (k : String)
    (h : (Rec.get t k).truthy = true) : (countersStep d t).get k = t.get k := by
  unfold countersStep
  by_cases hb : d.bodyText = ""
  · rw [if_pos hb]
  · rw [if_neg hb]
    have e1 : (followersStep d t).get k = t.get k := followersStep_preserve d t k h
    rw [employeesHeurStep_preserve d _ k (by rw [e1]; exact h), e1]

/-- The heuristic pass never rewrites a field that is already truthy. -/
theorem meta_preserve (d : Doc) (t : Rec) (k : String)
    (h : (Rec.get t k).truthy = true) :
    (parse_from_meta_and_title d t).get k = t.get k := by
  unfold parse_from_meta_and_title
  have e1 : (titleStep d t).get k = t.get k := titleStep_preserve d t k h
  have e2 : (descMetaStep d (titleStep d t)).get k = t.get k := by
    rw [descMetaStep_preserve _ _ _ (by rw [e1]; exact h), e1]
  have e3 : (logoMetaStep d (descMetaStep d (titleStep d t))).get k = t.get k := by
    rw [logoMetaStep_preserve _ _ _ (by rw [e2]; exact h), e2]
  have e4 : (coverMetaStep d (logoMetaStep d (descMetaStep d (titleStep d t)))).get k
      = t.get k := by
    rw [coverMetaStep_preserve _ _ _ (by rw [e3]; exact h), e3]
  have e5 : (sloganStep d (coverMetaStep d (logoMetaStep d (descMetaStep d
      (titleStep d t))))).get k = t.get k := by
    rw [sloganStep_preserve _ _ _ (by rw [e4]; exact h), e4]
  rw [countersStep_preserve _ _ _ (by rw [e5]; exact h), e5]

/-- Keys outside the sixteen written ones pass through the whole
JSON-LD pass untouched. -/
theorem parse_ld_get_frame (blocks : List (Option Json)) (t : Rec) (k : String)
    (h : ¬ k ∈ LD_KEYS) :
    (parse_from_json_ld blocks t).get k = t.get k := by
  rw [parse_from_json_ld_eq,
      foldl_get_comm _ (fun v _ => v) _ (fun t b => apply_get_frame b t k h)]
  exact foldl_id_val _ _

/-- The field `company_profile` is never written by either extractor pass, so
one scraped record always carries its input URL. -/
theorem scrape_one_profile (maxRetries : Nat) (backoff : ℚ)
    (attempts : Nat → AttemptResult) (url : String) :
    Rec.get (scrape_one maxRetries backoff attempts url) "company_profile" = Val.vstr url := by
  unfold scrape_one
  cases hf : (fetch_company_page maxRetries backoff url attempts).1 with
  | error e => rfl
  | ok doc =>
    unfold parse_company
    rw [meta_get_frame _ _ _ (by decide), parse_ld_get_frame _ _ _ (by decide)]
    rfl

theorem getD_map_rec (l : List String) (f : String → Rec) (i : Nat) (h : i < l.length) :
    (l.map f).getD i [] = f (l.getD i "") := by
  induction l generalizing i with
  | nil => simp at h
  | cons a as ih =>
    cases i with
    | zero => rfl
    | succ j => exact ih j (by simpa using h)

/-- C2: `scrape_profiles` returns one record per input URL (also for
the empty batch), and the record at each position carries
`company_profile` equal to the input URL at that position, on the
success path (`_parse_company` seeds it and no extractor overwrites
it) and on the failure path (the skeleton repeats the URL). -/
theorem claim2_profile_preserved (maxRetries : Nat) (backoff : ℚ)
    (attempts : String → Nat → AttemptResult) (urls : List String) :
    (scrape_profiles maxRetries backoff attempts urls).length = urls.length ∧
    ∀ i, i < urls.length →
      Rec.get ((scrape_profiles maxRetries backoff attempts urls).getD i []) "company_profile"
        = Val.vstr (urls.getD i "") := by
  constructor
  · simp [scrape_profiles]
  · intro i hi
    unfold scrape_profiles
    rw [getD_map_rec _ _ _ hi]
    exact scrape_one_profile maxRetries backoff (attempts (urls.getD i "")) (urls.getD i "")

theorem claim2_witness :
    (scrape_profiles 3 (3 / 2) (fun _ _ => AttemptResult.exc "boom") ["u"]).length = 1 ∧
    Rec.get ((scrape_profiles 3 (3 / 2) (fun _ _ => AttemptResult.exc "boom") ["u"]).getD 0 [])
      "company_profile" = Val.vstr "u" :=
  ⟨(claim2_profile_preserved 3 (3 / 2) (fun _ _ => AttemptResult.exc "boom") ["u"]).1,
   (claim2_profile_preserved 3 (3 / 2) (fun _ _ => AttemptResult.exc "boom") ["u"]).2 0
     (by decide)⟩

/-- C1: when the fetch for the URL at position `i` exhausts its
retries and raises (modelled by the fetcher returning `Except.error`),
the batch still returns one record per URL; the record at position `i`
is the skeleton: `company_name` is `None`, `company_profile` is the
input URL, and `error` holds the exception's string description.  The
surrounding `try`/`except` converts the exception instead of
propagating it, so the loop continues with the remaining URLs. -/
theorem claim1_failure_skeleton (maxRetries : Nat) (backoff : ℚ)
    (attempts : String → Nat → AttemptResult) (urls : List String) (i : Nat) (e : String)
    (hi : i < urls.length)
    (hfail : (fetch_company_page maxRetries backoff (urls.getD i "")
        (attempts (urls.getD i ""))).1 = Except.error e) :
    (scrape_profiles maxRetries backoff attempts urls).length = urls.length ∧
    Rec.get ((scrape_profiles maxRetries backoff attempts urls).getD i []) "company_name"
      = Val.vnone ∧
    Rec.get ((scrape_profiles maxRetries backoff attempts urls).getD i []) "company_profile"
      = Val.vstr (urls.getD i "") ∧
    Rec.get ((scrape_profiles maxRetries backoff attempts urls).getD i []) "error"
      = Val.vstr e := by
  refine ⟨by simp [scrape_profiles], ?_, ?_, ?_⟩ <;>
  · unfold scrape_profiles
    rw [getD_map_rec _ _ _ hi]
    unfold scrape_one
    rw [hfail]
    rfl

theorem claim1_witness :
    (scrape_profiles 3 (3 / 2) (fun _ _ => AttemptResult.exc "boom") ["u"]).length = 1 ∧
    Rec.get ((scrape_profiles 3 (3 / 2) (fun _ _ => AttemptResult.exc "boom") ["u"]).getD 0 [])
      "company_name" = Val.vnone ∧
    Rec.get ((scrape_profiles 3 (3 / 2) (fun _ _ => AttemptResult.exc "boom") ["u"]).getD 0 [])
      "company_profile" = Val.vstr "u" ∧
    Rec.get ((scrape_profiles 3 (3 / 2) (fun _ _ => AttemptResult.exc "boom") ["u"]).getD 0 [])
      "error" = Val.vstr "boom" :=
  claim1_failure_skeleton 3 (3 / 2) (fun _ _ => AttemptResult.exc "boom") ["u"] 0 "boom"
    (by decide) (by rfl)

/-- A record with `company_street` already set, and a matching node
whose `address` is an (empty) object. -/
def rec4 : Rec := Rec.set (initRecord "u") "company_street" (Val.vstr "Old St")

/-- A candidate organization node carrying an empty address object. -/
def node4 : Node := [("@type", Json.str "Organization"), ("address", Json.obj [])]

/-- C4 counterexample: `company_street` is neither `company_name` nor
`company_website`, is already set to `"Old St"`, yet one application
of `_apply_json_ld` with a matching node whose `address` is a dict
clears it to `None` — the address block assigns unconditionally. -/
theorem claim4_counterexample :
    (¬ "company_street" = "company_name") ∧ (¬ "company_street" = "company_website") ∧
    Rec.get rec4 "company_street" = Val.vstr "Old St" ∧
    Rec.get (apply_json_ld node4 rec4) "company_street" = Val.vnone := by
  exact ⟨by decide, by decide, rfl, rfl⟩

/-- C4 as amended: a structured-data node writes only Python-falsy
fields, except `company_name` and `company_website` (deliberate
overwrites) *and the six address-derived fields*, which a matching
node with an object-valued address rewrites unconditionally; the
heuristic pass never rewrites any truthy field. -/
theorem claim4_no_overwrite :
    (∀ (node : Node) (t : Rec) (k : String),
        ¬ k ∈ (["company_name", "company_website", "company_address_type", "company_street",
               "company_locality", "company_region", "company_postal_code",
               "company_country"] : List String) →
        (Rec.get t k).truthy = true →
        Rec.get (apply_json_ld node t) k = Rec.get t k) ∧
    (∀ (d : Doc) (t : Rec) (k : String),
        (Rec.get t k).truthy = true →
        Rec.get (parse_from_meta_and_title d t) k = Rec.get t k) := by
  constructor
  · intro node t k hk ht
    by_cases hin : k ∈ LD_KEYS
    · simp only [List.mem_cons, List.not_mem_nil, or_false, not_or] at hk
      obtain ⟨e1, e2, e3, e4, e5, e6, e7, e8⟩ := hk
      simp only [LD_KEYS, List.mem_cons, List.not_mem_nil, or_false] at hin
      rcases hin with rfl | rfl | rfl | rfl | rfl | rfl | rfl | rfl | rfl | rfl | rfl | rfl
        | rfl | rfl | rfl | rfl
      · exact absurd rfl e1
      · exact absurd rfl e2
      · exact absurd rfl e3
      · exact absurd rfl e4
      · exact absurd rfl e5
      · exact absurd rfl e6
      · exact absurd rfl e7
      · exact absurd rfl e8
      · rw [apply_get_about]; exact gdF_of_truthy _ _ _ _ ht
      · rw [apply_get_employees]; exact gdF_of_truthy _ _ _ _ ht
      · rw [apply_get_logo]; exact gdF_of_truthy _ _ _ _ ht
      · rw [apply_get_industry]; exact gdF_of_truthy _ _ _ _ ht
      · rw [apply_get_founded]; exact gdF_of_truthy _ _ _ _ ht
      · rw [apply_get_size]; exact gdF_of_truthy _ _ _ _ ht
      · rw [apply_get_hq]; exact gdF_of_truthy _ _ _ _ ht
      · rw [apply_get_specialties]; exact gdF_of_truthy _ _ _ _ ht
    · exact apply_get_frame node t k hin
  · exact meta_preserve

theorem claim4_witness :
    Rec.get (apply_json_ld node4 (Rec.set (initRecord "u") "company_about_us"
        (Val.vstr "About"))) "company_about_us"
      = Rec.get (Rec.set (initRecord "u") "company_about_us" (Val.vstr "About"))
          "company_about_us" ∧
    Rec.get (parse_from_meta_and_title
        (Doc.mk [] none [("og:description", "Other")] "")
        (Rec.set (initRecord "u") "company_about_us" (Val.vstr "About"))) "company_about_us"
      = Rec.get (Rec.set (initRecord "u") "company_about_us" (Val.vstr "About"))
          "company_about_us" :=
  ⟨claim4_no_overwrite.1 node4 _ "company_about_us" (by decide) (by rfl),
   claim4_no_overwrite.2 (Doc.mk [] none [("og:description", "Other")] "") _
     "company_about_us" (by rfl)⟩

/-- A document with a social-preview title but nothing that could
resolve `company_name`. -/
def doc9 : Doc := { ldBlocks := [], title := none, metas := [("og:title", "X")], bodyText := "" }

/-- C9 counterexample: the normalized social-preview title content is
`"X"`, which differs from the (absent) `company_name`, yet the
heuristic pass leaves `company_slogan` absent — the source also
requires `company_name` to be truthy before accepting a slogan. -/
theorem claim9_counterexample :
    (find_meta_content doc9.metas ["og:title", "twitter:title"]).bind
        (fun s => clean_text (some s)) = some "X" ∧
    (¬ Rec.get (parse_from_meta_and_title doc9 (initRecord "u")) "company_name"
        = Val.vstr "X") ∧
    Rec.get (parse_from_meta_and_title doc9 (initRecord "u")) "company_slogan" = Val.vnone := by
  refine ⟨rfl, by decide, rfl⟩

/-- C9 as amended: after the heuristic pass, `company_slogan` (when it
was absent before the pass) is set to the normalized social-preview
title content exactly when that content normalizes to a non-empty
string, `company_name` is resolved (truthy), and the content differs
from `company_name`; in every other case it stays absent. -/
theorem claim9_slogan (d : Doc) (r : Rec)
    (h : Rec.get r "company_slogan" = Val.vnone) :
    Rec.get (parse_from_meta_and_title d r) "company_slogan" =
      (match (find_meta_content d.metas ["og:title", "twitter:title"]).bind
          (fun s => clean_text (some s)) with
       | some headline =>
         if (Rec.get (parse_from_meta_and_title d r) "company_name").truthy
             && !(Rec.get (parse_from_meta_and_title d r) "company_name" = Val.vstr headline)
         then Val.vstr headline else Val.vnone
       | none => Val.vnone) := by
  unfold parse_from_meta_and_title
  set t4 := coverMetaStep d (logoMetaStep d (descMetaStep d (titleStep d r))) with ht4
  have hslog4 : t4.get "company_slogan" = Val.vnone := by
    rw [ht4, coverMetaStep_get_ne _ _ _ (by decide), logoMetaStep_get_ne _ _ _ (by decide),
        descMetaStep_get_ne _ _ _ (by decide) (by decide), titleStep_get_ne _ _ _ (by decide)]
    exact h
  have hname : (countersStep d (sloganStep d t4)).get "company_name"
      = t4.get "company_name" := by
    rw [countersStep_get_ne _ _ _ (by decide) (by decide), sloganStep_get_ne _ _ _ (by decide)]
  rw [countersStep_get_ne _ _ _ (by decide) (by decide), hname]
  unfold sloganStep
  rw [if_neg (by rw [hslog4]; simp [Val.truthy])]
  cases hb : (find_meta_content d.metas ["og:title", "twitter:title"]).bind
      (fun s => clean_text (some s)) with
  | none => exact hslog4
  | some headline =>
    by_cases hcond : ((t4.get "company_name").truthy
        && !(t4.get "company_name" = Val.vstr headline)) = true
    · simp [hcond, Rec.get_set_self]
    · simp [hcond, hslog4]

/-- A document with a usable title and social-preview title. -/
def doc9w : Doc :=
  { ldBlocks := [], title := some "Acme | LinkedIn",
    metas := [("og:title", "Best Widgets")], bodyText := "" }

theorem claim9_witness :
    Rec.get (parse_from_meta_and_title doc9w (initRecord "u")) "company_slogan" =
      (match (find_meta_content doc9w.metas ["og:title", "twitter:title"]).bind
          (fun s => clean_text (some s)) with
       | some headline =>
         if (Rec.get (parse_from_meta_and_title doc9w (initRecord "u")) "company_name").truthy
             && !(Rec.get (parse_from_meta_and_title doc9w (initRecord "u")) "company_name"
                    = Val.vstr headline)
         then Val.vstr headline else Val.vnone
       | none => Val.vnone) :=
  claim9_slogan doc9w (initRecord "u") rfl

/-! ## Key-set preservation (for the record-shape claim) -/

theorem keys_set_fields (t : Rec) (k : String) (v : Val) (ht : Rec.keys t = FIELDS)
    (hk : k ∈ FIELDS) : Rec.keys (t.set k v) = FIELDS := by
  rw [Rec.keys_set_of_mem t k v (by rw [ht]; exact hk), ht]

theorem nameStep_keys (n : Node) (t : Rec) (ht : Rec.keys t = FIELDS) :
    Rec.keys (nameStep n t) = FIELDS := by
  unfold nameStep
  cases clean_text_json (nget n "name") with
  | none => exact ht
  | some s => exact keys_set_fields _ _ _ ht (by decide)

theorem websiteStep_keys (n : Node) (t : Rec) (ht : Rec.keys t = FIELDS) :
    Rec.keys (websiteStep n t) = FIELDS := by
  unfold websiteStep
  cases clean_text_json (nget n "url") with
  | none => exact ht
  | some s => exact keys_set_fields _ _ _ ht (by decide)

theorem addressStep_keys (n : Node) (t : Rec) (ht : Rec.keys t = FIELDS) :
    Rec.keys (addressStep n t) = FIELDS := by
  unfold addressStep
  cases resolvedAddress n with
  | obj afs =>
    exact keys_set_fields _ _ _ (keys_set_fields _ _ _ (keys_set_fields _ _ _
      (keys_set_fields _ _ _ (keys_set_fields _ _ _ (keys_set_fields _ _ _ ht
        (by decide)) (by decide)) (by decide)) (by decide)) (by decide)) (by decide)
  | null => exact ht
  | jbool b => exact ht
  | num m => exact ht
  | str s => exact ht
  | arr xs => exact ht

theorem descriptionStep_keys (n : Node) (t : Rec) (ht : Rec.keys t = FIELDS) :
    Rec.keys (descriptionStep n t) = FIELDS := by
  unfold descriptionStep
  repeat' split
  all_goals first
    | exact ht
    | exact keys_set_fields _ _ _ ht (by decide)

theorem employeesStep_keys (n : Node) (t : Rec) (ht : Rec.keys t = FIELDS) :
    Rec.keys (employeesStep n t) = FIELDS := by
  unfold employeesStep
  dsimp only
  repeat' split
  all_goals first
    | exact ht
    | exact keys_set_fields _ _ _ ht (by decide)

theorem logoStep_keys (n : Node) (t : Rec) (ht : Rec.keys t = FIELDS) :
    Rec.keys (logoStep n t) = FIELDS := by
  unfold logoStep
  repeat' split
  all_goals first
    | exact ht
    | exact keys_set_fields _ _ _ ht (by decide)

theorem industryStep_keys (n : Node) (t : Rec) (ht : Rec.keys t = FIELDS) :
    Rec.keys (industryStep n t) = FIELDS := by
  unfold industryStep
  repeat' split
  all_goals first
    | exact ht
    | exact keys_set_fields _ _ _ ht (by decide)

theorem foundedStep_keys (n : Node) (t : Rec) (ht : Rec.keys t = FIELDS) :
    Rec.keys (foundedStep n t) = FIELDS := by
  unfold foundedStep
  repeat' split
  all_goals first
    | exact ht
    | exact keys_set_fields _ _ _ ht (by decide)

theorem sizeStep_keys (n : Node) (t : Rec) (ht : Rec.keys t = FIELDS) :
    Rec.keys (sizeStep n t) = FIELDS := by
  unfold sizeStep
  dsimp only
  repeat' split
  all_goals first
    | exact ht
    | exact keys_set_fields _ _ _ ht (by decide)

theorem hqStep_keys (n : Node) (t : Rec) (ht : Rec.keys t = FIELDS) :
    Rec.keys (hqStep n t) = FIELDS := by
  unfold hqStep
  repeat' split
  all_goals first
    | exact ht
    | exact keys_set_fields _ _ _ ht (by decide)

theorem specialtiesStep_keys (n : Node) (t : Rec) (ht : Rec.keys t = FIELDS) :
    Rec.keys (specialtiesStep n t) = FIELDS := by
  unfold specialtiesStep
  repeat' split
  all_goals first
    | exact ht
    | exact keys_set_fields _ _ _ ht (by decide)

theorem apply_json_ld_keys (n : Node) (t : Rec) (ht : Rec.keys t = FIELDS) :
    Rec.keys (apply_json_ld n t) = FIELDS := by
  unfold apply_json_ld
  by_cases hOrg : isCompanyType n
  · rw [if_pos hOrg]
    exact specialtiesStep_keys _ _ (hqStep_keys _ _ (sizeStep_keys _ _ (foundedStep_keys _ _
      (industryStep_keys _ _ (logoStep_keys _ _ (employeesStep_keys _ _
        (descriptionStep_keys _ _ (addressStep_keys _ _ (websiteStep_keys _ _
          (nameStep_keys _ _ ht))))))))))
  · rw [if_neg hOrg]; exact ht

theorem foldl_apply_keys (nodes : List Node) (t : Rec) (ht : Rec.keys t = FIELDS) :
    Rec.keys (nodes.foldl (fun acc n => apply_json_ld n acc) t) = FIELDS := by
  induction nodes generalizing t with
  | nil => exact ht
  | cons n ns ih => exact ih _ (apply_json_ld_keys n t ht)

theorem parse_ld_keys (blocks : List (Option Json)) (t : Rec) (ht : Rec.keys t = FIELDS) :
    Rec.keys (parse_from_json_ld blocks t) = FIELDS := by
  rw [parse_from_json_ld_eq]
  exact foldl_apply_keys _ _ ht

theorem titleStep_keys (d : Doc) (t : Rec) (ht : Rec.keys t = FIELDS) :
    Rec.keys (titleStep d t) = FIELDS := by
  unfold titleStep
  repeat' split
  all_goals first
    | exact ht
    | exact keys_set_fields _ _ _ ht (by decide)

theorem descMetaStep_keys (d : Doc) (t : Rec) (ht : Rec.keys t = FIELDS) :
    Rec.keys (descMetaStep d t) = FIELDS := by
  unfold descMetaStep
  dsimp only
  repeat' split
  all_goals first
    | exact ht
    | exact keys_set_fields _ _ _ ht (by decide)
    | exact keys_set_fields _ _ _ (keys_set_fields _ _ _ ht (by decide)) (by decide)

theorem logoMetaStep_keys (d : Doc) (t : Rec) (ht : Rec.keys t = FIELDS) :
    Rec.keys (logoMetaStep d t) = FIELDS := by
  unfold logoMetaStep
  repeat' split
  all_goals first
    | exact ht
    | exact keys_set_fields _ _ _ ht (by decide)

theorem coverMetaStep_keys (d : Doc) (t : Rec) (ht : Rec.keys t = FIELDS) :
    Rec.keys (coverMetaStep d t) = FIELDS := by
  unfold coverMetaStep
  repeat' split
  all_goals first
    | exact ht
    | exact keys_set_fields _ _ _ ht (by decide)

theorem sloganStep_keys (d : Doc) (t : Rec) (ht : Rec.keys t = FIELDS) :
    Rec.keys (sloganStep d t) = FIELDS := by
  unfold sloganStep
  repeat' split
  all_goals first
    | exact ht
    | exact keys_set_fields _ _ _ ht (by decide)

theorem countersStep_keys (d : Doc) (t : Rec) (ht : Rec.keys t = FIELDS) :
    Rec.keys (countersStep d t) = FIELDS := by
  unfold countersStep followersStep employeesHeurStep
  repeat' split
  all_goals first
    | exact ht
    | exact keys_set_fields _ _ _ ht (by decide)
    | exact keys_set_fields _ _ _ (keys_set_fields _ _ _ ht (by decide)) (by decide)

theorem parse_company_keys (d : Doc) (url : String) :
    Rec.keys (parse_company d url) = FIELDS := by
  unfold parse_company parse_from_meta_and_title
  exact countersStep_keys _ _ (sloganStep_keys _ _ (coverMetaStep_keys _ _
    (logoMetaStep_keys _ _ (descMetaStep_keys _ _ (titleStep_keys _ _
      (parse_ld_keys _ _ rfl))))))

/-- C3 counterexample: a batch whose single URL fails every fetch
attempt yields the three-key skeleton record — `company_website` (a
Company Record field) is missing from it, so the output shape is not
uniform across success and failure. -/
theorem claim3_counterexample :
    Rec.keys ((scrape_profiles 3 (3 / 2) (fun _ _ => AttemptResult.exc "boom") ["u"]).getD 0 [])
      = ["company_name", "company_profile", "error"] ∧
    "company_website" ∈ FIELDS ∧
    ¬ "company_website" ∈
      Rec.keys ((scrape_profiles 3 (3 / 2) (fun _ _ => AttemptResult.exc "boom") ["u"]).getD
        0 []) := by
  refine ⟨rfl, by decide, by decide⟩

/-- C3 as amended: a successfully fetched-and-parsed URL yields a
record carrying all 22 fixed field names in order; a failed URL yields
the skeleton with exactly `company_name`, `company_profile` and
`error`.  The uniform-shape invariant holds only across successful
extractions. -/
theorem claim3_record_shape (maxRetries : Nat) (backoff : ℚ)
    (attempts : String → Nat → AttemptResult) (urls : List String) (i : Nat)
    (hi : i < urls.length) :
    Rec.keys ((scrape_profiles maxRetries backoff attempts urls).getD i []) =
      (match (fetch_company_page maxRetries backoff (urls.getD i "")
          (attempts (urls.getD i ""))).1 with
       | .ok _ => FIELDS
       | .error _ => ["company_name", "company_profile", "error"]) := by
  unfold scrape_profiles
  rw [getD_map_rec _ _ _ hi]
  unfold scrape_one
  cases hf : (fetch_company_page maxRetries backoff (urls.getD i "")
      (attempts (urls.getD i ""))).1 with
  | error e => rfl
  | ok doc => exact parse_company_keys doc (urls.getD i "")

theorem claim3_witness :
    Rec.keys ((scrape_profiles 3 (3 / 2) (fun _ _ => AttemptResult.exc "boom") ["u"]).getD 0 [])
      = (match (fetch_company_page 3 (3 / 2) "u" (fun _ => AttemptResult.exc "boom")).1 with
         | .ok _ => FIELDS
         | .error _ => ["company_name", "company_profile", "error"]) :=
  claim3_record_shape 3 (3 / 2) (fun _ _ => AttemptResult.exc "boom") ["u"] 0 (by decide)

/-! ## Retry timing -/

/-- When every attempt fails, the retry loop sleeps after each of its
`fuel` attempts (including the last one, right before raising), with
the exponent advancing by one per attempt. -/
theorem fetchGo_sleeps_all_fail (backoff : ℚ) (url : String)
    (attempts : Nat → AttemptResult)
    (hfail : ∀ m, (attempts m).isSuccess = false) :
    ∀ (fuel attempt : Nat) (lastExc : Option String), 1 ≤ attempt →
      (fetchGo backoff url attempts fuel attempt lastExc).2 =
        (List.range fuel).map (fun j => backoff * 2 ^ (attempt - 1 + j)) := by
  intro fuel
  induction fuel with
  | zero =>
    intro attempt lastExc _
    cases lastExc <;> simp [fetchGo]
  | succ f ih =>
    intro attempt lastExc h1
    have hv := hfail attempt
    have hrange : (List.range (f + 1)).map (fun j => backoff * 2 ^ (attempt - 1 + j)) =
        backoff * 2 ^ (attempt - 1) ::
          (List.range f).map (fun j => backoff * 2 ^ (attempt + 1 - 1 + j)) := by
      rw [List.range_succ_eq_map, List.map_cons, List.map_map]
      simp only [List.cons.injEq, Nat.add_zero, true_and]
      apply List.map_congr_left
      intro j hj
      have he : attempt - 1 + Nat.succ j = attempt + 1 - 1 + j := by omega
      simp [Function.comp, he]
    cases ha : attempts attempt with
    | response s text =>
      rw [ha] at hv
      have hst : ¬ (200 ≤ s ∧ s < 300) := by
        intro hc
        simp [AttemptResult.isSuccess, hc.1, hc.2] at hv
      unfold fetchGo
      rw [ha]
      simp only [hst, if_false]
      rw [hrange]
      congr 1
      exact ih (attempt + 1) lastExc (by omega)
    | exc m =>
      unfold fetchGo
      rw [ha]
      simp only
      rw [hrange]
      congr 1
      exact ih (attempt + 1) (some m) (by omega)

/-- C5 as amended: with `max_retries = 3` and `backoff_factor = 1.5`,
a fetch whose every attempt fails sleeps
`backoff_factor * 2 ** (attempt - 1)` (plus jitter) after *every*
attempt — including a final, useless sleep after the third attempt
before the exception is raised — so the individual sleeps excluding
jitter are 1.5 s, 3 s and 6 s and their total is 10.5 s, not 4.5 s. -/
theorem claim5_total_sleep (url : String) (attempts : Nat → AttemptResult)
    (hfail : ∀ m, (attempts m).isSuccess = false) :
    (fetch_company_page 3 (3 / 2 : ℚ) url attempts).2 = [3 / 2, 3, 6] ∧
    (fetch_company_page 3 (3 / 2 : ℚ) url attempts).2.sum = 21 / 2 := by
  have h := fetchGo_sleeps_all_fail (3 / 2) url attempts hfail 3 1 none (by omega)
  unfold fetch_company_page
  rw [h]
  constructor
  · show [(3 / 2 : ℚ) * 2 ^ 0, 3 / 2 * 2 ^ 1, 3 / 2 * 2 ^ 2] = [3 / 2, 3, 6]
    norm_num
  · show ([(3 / 2 : ℚ) * 2 ^ 0, 3 / 2 * 2 ^ 1, 3 / 2 * 2 ^ 2]).sum = 21 / 2
    norm_num [List.sum_cons]

/-- C5 counterexample: for the concrete all-failing fetch the total
sleep excluding jitter is 10.5 s, which is not the 4.5 s the claim
computes (it overlooks the sleep after the final attempt). -/
theorem claim5_counterexample :
    (fetch_company_page 3 (3 / 2 : ℚ) "u" (fun _ => AttemptResult.exc "boom")).2.sum
        = 21 / 2 ∧
    ¬ (fetch_company_page 3 (3 / 2 : ℚ) "u"
        (fun _ => AttemptResult.exc "boom")).2.sum = 9 / 2 := by
  constructor
  · show ((3 / 2 : ℚ) * 2 ^ 0 + (3 / 2 * 2 ^ 1 + (3 / 2 * 2 ^ 2 + 0))) = 21 / 2
    norm_num
  · show ¬ ((3 / 2 : ℚ) * 2 ^ 0 + (3 / 2 * 2 ^ 1 + (3 / 2 * 2 ^ 2 + 0))) = 9 / 2
    norm_num

theorem claim5_witness :
    (fetch_company_page 3 (3 / 2 : ℚ) "w" (fun _ => AttemptResult.exc "down")).2
        = [3 / 2, 3, 6] ∧
    (fetch_company_page 3 (3 / 2 : ℚ) "w" (fun _ => AttemptResult.exc "down")).2.sum
        = 21 / 2 :=
  claim5_total_sleep "w" (fun _ => AttemptResult.exc "down") (fun _ => rfl)

/-! ## Country flattening and numeric coercion -/

/-- The failing input of the country-flattening claim: a matching
organization node whose `addressCountry` is a nested object with a
`name` entry. -/
def node7 : Node :=
  [("@type", Json.str "Organization"),
   ("address", Json.obj [("addressCountry", Json.obj [("name", Json.str "France")])])]

/-- C7 evaluated on the failing input: the node matches the
organization filter and its address country object carries
`name = "France"`, yet `company_country` ends up `None`.  The source
reads the nested name with `getattr(value, "name", None)`, but a
parsed-JSON dict has no `name` *attribute* (only a key), so the
default `None` is always returned — the nested-object branch is dead
code and the spec's described flattening never happens. -/
theorem claim7_country_dropped :
    isCompanyType node7 = true ∧
    nget (match nget node7 "address" with | Json.obj afs => afs | _ => []) "addressCountry"
      = Json.obj [("name", Json.str "France")] ∧
    clean_text_json (Json.str "France") = some "France" ∧
    Rec.get (apply_json_ld node7 (initRecord "u")) "company_country" = Val.vnone :=
  ⟨rfl, rfl, rfl, rfl⟩

/-- C8: `safe_int` coerces `"10,001"` to `10001` (commas stripped),
coerces `"1,234+"` after the trailing `+`/`·` strip performed by
`_extract_number_near_keyword` to `1234`, returns `None` on
non-numeric text, and — being a total function into `Option` — never
raises for any input value. -/
theorem claim8_numeric_coercion :
    safe_int (Json.str "10,001") = some 10001 ∧
    safe_int_str (String.mk (rstripPlusMiddot "1,234+".toList)) = some 1234 ∧
    safe_int (Json.str "ten") = none ∧
    (∀ j : Json, safe_int j = none ∨ ∃ z : Int, safe_int j = some z) := by
  refine ⟨rfl, rfl, rfl, ?_⟩
  intro j
  cases h : safe_int j with
  | none => exact Or.inl rfl
  | some z => exact Or.inr ⟨z, rfl⟩

/-! ## No extractor ever stores an empty string except the
specialties join -/

theorem wsTokensAux_ne_nil (cs : List Char) :
    ∀ (cur : List Char) (tok : List Char), tok ∈ wsTokensAux cur cs → ¬ tok = [] := by
  induction cs with
  | nil =>
    intro cur tok htok
    unfold wsTokensAux at htok
    by_cases hc : cur.isEmpty
    · simp [hc] at htok
    · simp [hc] at htok
      subst htok
      intro hcon
      rw [List.reverse_eq_nil_iff] at hcon
      subst hcon
      simp at hc
  | cons c rest ih =>
    intro cur tok htok
    unfold wsTokensAux at htok
    by_cases hw : c.isWhitespace
    · rw [if_pos hw] at htok
      by_cases hc : cur.isEmpty
      · rw [if_pos hc] at htok
        exact ih [] tok htok
      · rw [if_neg hc] at htok
        rcases List.mem_cons.mp htok with rfl | hmem
        · intro hcon
          rw [List.reverse_eq_nil_iff] at hcon
          subst hcon
          simp at hc
        · exact ih [] tok hmem
    · rw [if_neg hw] at htok
      exact ih (c :: cur) tok htok

theorem joinTokens_ne_nil (t : List Char) (rest : List (List Char)) (ht : ¬ t = []) :
    ¬ joinTokens (t :: rest) = [] := by
  cases rest <;> simp [joinTokens, ht]

/-- The normalizer `clean_text` never returns the empty string: an all-whitespace
input becomes `None` instead. -/
theorem clean_text_ne_empty (o : Option String) (s : String) (h : clean_text o = some s) :
    ¬ s = "" := by
  unfold clean_text at h
  split at h
  · exact absurd h (by simp)
  · split at h
    · exact absurd h (by simp)
    · rename_i t rest htk
      have hs : s = String.mk (joinTokens (t :: rest)) := by
        injection h with h2
        exact h2.symm
      have hmem := List.mem_cons_self t rest
      rw [← htk] at hmem
      have htne : ¬ t = [] := wsTokensAux_ne_nil _ [] t hmem
      have hjoin := joinTokens_ne_nil t rest htne
      rw [hs]
      intro hcon
      apply hjoin
      have hdata := congrArg String.data hcon
      simpa using hdata

theorem toVal_clean_ne_empty (o : Option String) : ¬ toVal (clean_text o) = Val.vstr "" := by
  cases h : clean_text o with
  | none => simp [toVal]
  | some s =>
    intro hcon
    simp only [toVal] at hcon
    injection hcon with h2
    exact clean_text_ne_empty o s h h2

theorem toVal_clean_json_ne_empty (j : Json) :
    ¬ toVal (clean_text_json j) = Val.vstr "" := by
  cases j with
  | null => simp [clean_text_json, toVal]
  | str s => exact toVal_clean_ne_empty (some s)
  | jbool b => exact toVal_clean_ne_empty (some (pyStr (Json.jbool b)))
  | num n => exact toVal_clean_ne_empty (some (pyStr (Json.num n)))
  | arr xs => exact toVal_clean_ne_empty (some (pyStr (Json.arr xs)))
  | obj fs => exact toVal_clean_ne_empty (some (pyStr (Json.obj fs)))

theorem intToVal_ne_empty (o : Option Int) : ¬ intToVal o = Val.vstr "" := by
  cases o <;> simp [intToVal]

theorem addrVal_ne_empty (field : String) (n : Node) : ¬ addrVal field n = Val.vstr "" := by
  unfold addrVal
  cases addrObj n with
  | none => simp
  | some afs => exact toVal_clean_json_ne_empty _

theorem addrCountryVal_ne_empty (n : Node) : ¬ addrCountryVal n = Val.vstr "" := by
  unfold addrCountryVal
  cases addrObj n with
  | none => simp
  | some afs =>
    show ¬ toVal (countryText afs) = Val.vstr ""
    unfold countryText
    cases nget afs "addressCountry" with
    | str s => exact toVal_clean_ne_empty (some s)
    | null => exact toVal_clean_json_ne_empty (getattr_name Json.null)
    | jbool b => exact toVal_clean_json_ne_empty (getattr_name (Json.jbool b))
    | num m => exact toVal_clean_json_ne_empty (getattr_name (Json.num m))
    | arr xs => exact toVal_clean_json_ne_empty (getattr_name (Json.arr xs))
    | obj fs => exact toVal_clean_json_ne_empty (getattr_name (Json.obj fs))

theorem logoVal_ne_empty (n : Node) : ¬ logoVal n = Val.vstr "" := by
  unfold logoVal
  cases nget n "logo" with
  | obj lfs => exact toVal_clean_json_ne_empty _
  | null => exact toVal_clean_json_ne_empty Json.null
  | jbool b => exact toVal_clean_json_ne_empty (Json.jbool b)
  | num m => exact toVal_clean_json_ne_empty (Json.num m)
  | str s => exact toVal_clean_json_ne_empty (Json.str s)
  | arr xs => exact toVal_clean_json_ne_empty (Json.arr xs)

theorem hqVal_ne_empty (n : Node) : ¬ hqVal n = Val.vstr "" := by
  unfold hqVal
  cases hqRaw n with
  | obj hfs => exact toVal_clean_json_ne_empty _
  | str s => exact toVal_clean_ne_empty (some s)
  | null => simp
  | jbool b => simp
  | num m => simp
  | arr xs => simp

/-- The JSON-LD pass preserves "is not the empty string" for every
field other than `company_specialties`. -/
theorem parse_ld_ne_empty (blocks : List (Option Json)) (t : Rec) (k : String)
    (hk : ¬ k = "company_specialties") (h : ¬ Rec.get t k = Val.vstr "") :
    ¬ Rec.get (parse_from_json_ld blocks t) k = Val.vstr "" := by
  rw [parse_from_json_ld_eq]
  by_cases hin : k ∈ LD_KEYS
  · simp only [LD_KEYS, List.mem_cons, List.not_mem_nil, or_false] at hin
    rcases hin with rfl | rfl | rfl | rfl | rfl | rfl | rfl | rfl | rfl | rfl | rfl | rfl
      | rfl | rfl | rfl | rfl
    · rw [foldl_get_comm _ _ _ (fun t b => apply_get_name b t)]
      exact foldl_owF_preserve _ _ (fun v => ¬ v = Val.vstr "")
        (fun n => toVal_clean_json_ne_empty _) _ _ h
    · rw [foldl_get_comm _ _ _ (fun t b => apply_get_website b t)]
      exact foldl_owF_preserve _ _ (fun v => ¬ v = Val.vstr "")
        (fun n => toVal_clean_json_ne_empty _) _ _ h
    · rw [foldl_get_comm _ _ _ (fun t b => apply_get_addr_type b t)]
      exact foldl_owF_preserve _ _ (fun v => ¬ v = Val.vstr "")
        (fun n => addrVal_ne_empty _ n) _ _ h
    · rw [foldl_get_comm _ _ _ (fun t b => apply_get_street b t)]
      exact foldl_owF_preserve _ _ (fun v => ¬ v = Val.vstr "")
        (fun n => addrVal_ne_empty _ n) _ _ h
    · rw [foldl_get_comm _ _ _ (fun t b => apply_get_locality b t)]
      exact foldl_owF_preserve _ _ (fun v => ¬ v = Val.vstr "")
        (fun n => addrVal_ne_empty _ n) _ _ h
    · rw [foldl_get_comm _ _ _ (fun t b => apply_get_region b t)]
      exact foldl_owF_preserve _ _ (fun v => ¬ v = Val.vstr "")
        (fun n => addrVal_ne_empty _ n) _ _ h
    · rw [foldl_get_comm _ _ _ (fun t b => apply_get_postal b t)]
      exact foldl_owF_preserve _ _ (fun v => ¬ v = Val.vstr "")
        (fun n => addrVal_ne_empty _ n) _ _ h
    · rw [foldl_get_comm _ _ _ (fun t b => apply_get_country b t)]
      exact foldl_owF_preserve _ _ (fun v => ¬ v = Val.vstr "")
        (fun n => addrCountryVal_ne_empty n) _ _ h
    · rw [foldl_get_comm _ _ _ (fun t b => apply_get_about b t)]
      exact foldl_gdF_preserve _ _ (fun v => ¬ v = Val.vstr "")
        (fun n => toVal_clean_json_ne_empty _) _ _ h
    · rw [foldl_get_comm _ _ _ (fun t b => apply_get_employees b t)]
      exact foldl_gdF_preserve _ _ (fun v => ¬ v = Val.vstr "")
        (fun n => intToVal_ne_empty _) _ _ h
    · rw [foldl_get_comm _ _ _ (fun t b => apply_get_logo b t)]
      exact foldl_gdF_preserve _ _ (fun v => ¬ v = Val.vstr "")
        (fun n => logoVal_ne_empty n) _ _ h
    · rw [foldl_get_comm _ _ _ (fun t b => apply_get_industry b t)]
      exact foldl_gdF_preserve _ _ (fun v => ¬ v = Val.vstr "")
        (fun n => toVal_clean_json_ne_empty _) _ _ h
    · rw [foldl_get_comm _ _ _ (fun t b => apply_get_founded b t)]
      exact foldl_gdF_preserve _ _ (fun v => ¬ v = Val.vstr "")
        (fun n => intToVal_ne_empty _) _ _ h
    · rw [foldl_get_comm _ _ _ (fun t b => apply_get_size b t)]
      exact foldl_gdF_preserve _ _ (fun v => ¬ v = Val.vstr "")
        (fun n => toVal_clean_json_ne_empty _) _ _ h
    · rw [foldl_get_comm _ _ _ (fun t b => apply_get_hq b t)]
      exact foldl_gdF_preserve _ _ (fun v => ¬ v = Val.vstr "")
        (fun n => hqVal_ne_empty n) _ _ h
    · exact absurd rfl hk
  · rw [foldl_get_comm _ (fun v _ => v) _ (fun t b => apply_get_frame b t k hin),
        foldl_id_val]
    exact h

theorem titleStep_ne_empty (d : Doc) (t : Rec) (k : String)
    (h : ¬ Rec.get t k = Val.vstr "") : ¬ Rec.get (titleStep d t) k = Val.vstr "" := by
  by_cases hk : k = "company_name"
  · subst hk
    unfold titleStep
    by_cases ht : (Rec.get t "company_name").truthy
    · rw [if_pos ht]; exact h
    · rw [if_neg ht]
      cases hT : d.title with
      | none => exact h
      | some ts =>
        simp only
        by_cases hts : ts = ""
        · rw [if_pos hts]; exact h
        · rw [if_neg hts]
          cases hc : clean_text (some ts) with
          | none => exact h
          | some title =>
            simp only
            cases hp : ((splitOnChar '|' title).map trimChars).filter
                (fun p => !p.isEmpty) with
            | nil => exact h
            | cons p ps =>
              simp only
              rw [Rec.get_set_self]
              intro hcon
              injection hcon with h2
              have hmem : p ∈ ((splitOnChar '|' title).map trimChars).filter
                  (fun p => !p.isEmpty) := by
                rw [hp]; exact List.mem_cons_self p ps
              have hpe : (!p.isEmpty) = true := (List.mem_filter.mp hmem).2
              have hpn : ¬ p = [] := by
                intro hc2; subst hc2; simp at hpe
              apply hpn
              have hdata := congrArg String.data h2
              simpa using hdata
  · rw [titleStep_get_ne d t k hk]; exact h

theorem descMetaStep_ne_empty (d : Doc) (t : Rec) (k : String)
    (h : ¬ Rec.get t k = Val.vstr "") : ¬ Rec.get (descMetaStep d t) k = Val.vstr "" := by
  by_cases h1 : k = "company_about_us"
  · subst h1
    unfold descMetaStep
    by_cases ha : (Rec.get t "company_about_us").truthy
    · rw [if_pos ha]; exact h
    · rw [if_neg ha]
      cases hf : find_meta_content d.metas ["description", "og:description"] with
      | none => exact h
      | some desc =>
        simp only
        by_cases htw : ((t.set "company_about_us" (toVal (clean_text (some desc)))).get
            "company_twitter_description").truthy
        · rw [if_pos htw, Rec.get_set_self]
          exact toVal_clean_ne_empty _
        · rw [if_neg htw, Rec.get_set_ne _ _ _ _ (by decide), Rec.get_set_self]
          exact toVal_clean_ne_empty _
  · by_cases h2 : k = "company_twitter_description"
    · subst h2
      unfold descMetaStep
      by_cases ha : (Rec.get t "company_about_us").truthy
      · rw [if_pos ha]; exact h
      · rw [if_neg ha]
        cases hf : find_meta_content d.metas ["description", "og:description"] with
        | none => exact h
        | some desc =>
          simp only
          by_cases htw : ((t.set "company_about_us" (toVal (clean_text (some desc)))).get
              "company_twitter_description").truthy
          · rw [if_pos htw, Rec.get_set_ne _ _ _ _ (by decide)]; exact h
          · rw [if_neg htw, Rec.get_set_self]
            exact toVal_clean_ne_empty _
    · rw [descMetaStep_get_ne d t k h1 h2]; exact h

theorem logoMetaStep_ne_empty (d : Doc) (t : Rec) (k : String)
    (h : ¬ Rec.get t k = Val.vstr "") : ¬ Rec.get (logoMetaStep d t) k = Val.vstr "" := by
  by_cases hk : k = "company_logo"
  · subst hk
    unfold logoMetaStep
    by_cases ht : (Rec.get t "company_logo").truthy
    · rw [if_pos ht]; exact h
    · rw [if_neg ht]
      cases hf : find_meta_content d.metas ["og:logo", "og:image", "twitter:image"] with
      | none => exact h
      | some logo =>
        simp only
        rw [Rec.get_set_self]
        exact toVal_clean_ne_empty _
  · rw [logoMetaStep_get_ne d t k hk]; exact h

theorem coverMetaStep_ne_empty (d : Doc) (t : Rec) (k : String)
    (h : ¬ Rec.get t k = Val.vstr "") : ¬ Rec.get (coverMetaStep d t) k = Val.vstr "" := by
  by_cases hk : k = "company_cover_image"
  · subst hk
    unfold coverMetaStep
    by_cases ht : (Rec.get t "company_cover_image").truthy
    · rw [if_pos ht]; exact h
    · rw [if_neg ht]
      cases hf : find_meta_content d.metas ["og:image", "twitter:image"] with
      | none => exact h
      | some cover =>
        simp only
        rw [Rec.get_set_self]
        exact toVal_clean_ne_empty _
  · rw [coverMetaStep_get_ne d t k hk]; exact h

theorem sloganStep_ne_empty (d : Doc) (t : Rec) (k : String)
    (h : ¬ Rec.get t k = Val.vstr "") : ¬ Rec.get (sloganStep d t) k = Val.vstr "" := by
  by_cases hk : k = "company_slogan"
  · subst hk
    unfold sloganStep
    by_cases ht : (Rec.get t "company_slogan").truthy
    · rw [if_pos ht]; exact h
    · rw [if_neg ht]
      cases hb : (find_meta_content d.metas ["og:title", "twitter:title"]).bind
          (fun hh => clean_text (some hh)) with
      | none => exact h
      | some headline =>
        simp only
        by_cases hcond : ((t.get "company_name").truthy
            && !(t.get "company_name" = Val.vstr headline)) = true
        · rw [if_pos hcond, Rec.get_set_self]
          intro hcon
          injection hcon with h2
          cases hfind : find_meta_content d.metas ["og:title", "twitter:title"] with
          | none => rw [hfind] at hb; exact absurd hb (by simp)
          | some s =>
            rw [hfind] at hb
            have hcl : clean_text (some s) = some headline := hb
            exact clean_text_ne_empty (some s) headline hcl h2
        · rw [if_neg hcond]; exact h
  · rw [sloganStep_get_ne d t k hk]; exact h

theorem followersStep_ne_empty (d : Doc) (t : Rec) (k : String)
    (h : ¬ Rec.get t k = Val.vstr "") : ¬ Rec.get (followersStep d t) k = Val.vstr "" := by
  by_cases hk : k = "company_followers_on_linkedin"
  · subst hk
    unfold followersStep
    by_cases ht : (Rec.get t "company_followers_on_linkedin").truthy
    · rw [if_pos ht]; exact h
    · rw [if_neg ht]
      cases hn : extract_number_near_keyword d.bodyText "followers" with
      | none => exact h
      | some m =>
        simp only
        rw [Rec.get_set_self]
        simp
  · rw [followersStep_get_ne d t k hk]; exact h

theorem employeesHeurStep_ne_empty (d : Doc) (t : Rec) (k : String)
    (h : ¬ Rec.get t k = Val.vstr "") :
    ¬ Rec.get (employeesHeurStep d t) k = Val.vstr "" := by
  by_cases hk : k = "company_employees_on_linkedin"
  · subst hk
    unfold employeesHeurStep
    by_cases ht : (Rec.get t "company_employees_on_linkedin").truthy
    · rw [if_pos ht]; exact h
    · rw [if_neg ht]
      cases hn : extract_number_near_keyword d.bodyText "employees" with
      | none => exact h
      | some m =>
        simp only
        rw [Rec.get_set_self]
        simp
  · rw [employeesHeurStep_get_ne d t k hk]; exact h

theorem countersStep_ne_empty (d : Doc) (t : Rec) (k : String)
    (h : ¬ Rec.get t k = Val.vstr "") : ¬ Rec.get (countersStep d t) k = Val.vstr "" := by
  unfold countersStep
  by_cases hb : d.bodyText = ""
  · rw [if_pos hb]; exact h
  · rw [if_neg hb]
    exact employeesHeurStep_ne_empty d _ k (followersStep_ne_empty d t k h)

/-- The heuristic pass preserves "is not the empty string" for every
field. -/
theorem meta_ne_empty (d : Doc) (t : Rec) (k : String)
    (h : ¬ Rec.get t k = Val.vstr "") :
    ¬ Rec.get (parse_from_meta_and_title d t) k = Val.vstr "" := by
  unfold parse_from_meta_and_title
  exact countersStep_ne_empty d _ k (sloganStep_ne_empty d _ k (coverMetaStep_ne_empty d _ k
    (logoMetaStep_ne_empty d _ k (descMetaStep_ne_empty d _ k
      (titleStep_ne_empty d t k h)))))

theorem initRecord_get (url : String) (k : String) :
    Rec.get (initRecord url) k =
      (if k = "company_profile" then Val.vstr url else Val.vnone) := by
  by_cases hp : k = "company_profile"
  · subst hp; rfl
  · rw [if_neg hp]
    simp only [initRecord, Rec.get]
    all_goals simp_all
    all_goals exact fun _ hh => hp hh.symm

/-- No field of a parsed record other than `company_specialties` can
hold the empty string (assuming the input URL is non-empty, per the
fetcher's contract). -/
theorem parse_company_ne_empty (d : Doc) (url k : String) (hurl : ¬ url = "")
    (hk : ¬ k = "company_specialties") :
    ¬ Rec.get (parse_company d url) k = Val.vstr "" := by
  unfold parse_company
  apply meta_ne_empty
  apply parse_ld_ne_empty _ _ _ hk
  rw [initRecord_get]
  by_cases hp : k = "company_profile"
  · rw [if_pos hp]
    intro hcon
    injection hcon with h2
    exact hurl h2
  · rw [if_neg hp]; simp

/-- C10: when a matching node's `knowsAbout` is a non-empty list all
of whose elements normalize to `None` (e.g. all-whitespace strings),
the `", ".join` over the cleaned truthy elements is the empty string,
which is stored into `company_specialties`; and no other field of a
parsed record can ever hold the empty string (every other stored value
is either `None`, an integer, a `clean_text` result — which is `None`
rather than empty — or the non-empty input URL), so
`company_specialties` is the unique field that can carry `""` instead
of the absence marker. -/
theorem claim10_specialties_empty (node : Node) (t : Rec) (xs : List Json)
    (h1 : isCompanyType node = true)
    (h2 : nget node "knowsAbout" = Json.arr xs)
    (h3 : ¬ xs = [])
    (h4 : ∀ x ∈ xs, clean_text_json x = none)
    (h5 : (Rec.get t "company_specialties").truthy = false) :
    Rec.get (apply_json_ld node t) "company_specialties" = Val.vstr "" ∧
    (∀ (d : Doc) (url k : String), ¬ url = "" → ¬ k = "company_specialties" →
      ¬ Rec.get (parse_company d url) k = Val.vstr "") := by
  constructor
  · rw [apply_get_specialties]
    have hxt : jtruthy (Json.arr xs) = true := by
      cases xs with
      | nil => exact absurd rfl h3
      | cons a as => rfl
    have hspr : spRaw node = Json.arr xs := by
      unfold spRaw
      rw [h2]
      unfold jor
      rw [if_pos hxt]
    have hm : spMatches node = true := by
      unfold spMatches
      rw [hspr]
    have hfm : xs.filterMap clean_text_json = [] := by
      rw [List.filterMap_eq_nil_iff]
      exact h4
    have hv : spVal node = Val.vstr "" := by
      unfold spVal
      rw [hspr]
      simp only [hfm]
      rfl
    simp [gdF, h1, hm, h5, hv]
  · intro d url k hurl hk
    exact parse_company_ne_empty d url k hurl hk

theorem claim10_witness :
    Rec.get (apply_json_ld
        [("@type", Json.str "Organization"), ("knowsAbout", Json.arr [Json.str " "])]
        (initRecord "u")) "company_specialties" = Val.vstr "" ∧
    (∀ (d : Doc) (url k : String), ¬ url = "" → ¬ k = "company_specialties" →
      ¬ Rec.get (parse_company d url) k = Val.vstr "") :=
  claim10_specialties_empty
    [("@type", Json.str "Organization"), ("knowsAbout", Json.arr [Json.str " "])]
    (initRecord "u") [Json.str " "] rfl rfl (List.cons_ne_nil _ _)
    (by
      intro x hx
      simp only [List.mem_singleton] at hx
      subst hx
      rfl)
    rfl
